import Mathlib

/-!
# Verification of the PostgREST uploader core (IoTaWatt)

Shallow embedding of `src/Firmware/IotaWatt/uploaders/postgrest_uploader.h`.

Part 1 models the timestamp codec: `parseTimestamp` is translated from the
source's chain of `sscanf` calls, with a character-level model of the C
`sscanf` directives actually used (`%d`, `%c`, literal characters, and the
whitespace directive).  The external helpers `Unixtime` (civil fields to
UNIX seconds) and `datef(t, "YYYY-MM-DDThh:mm:ssZ")` are not part of the
reviewed unit; they are modelled from the spec (section 4.1) as the exact
proleptic-Gregorian UTC conversion and the canonical ISO-8601 UTC rendering.

Part 2 models the uploader state machine: `handle_checkQuery_s`,
`handle_write_s` and `handle_checkWrite_s`, over an explicit state record
and an environment bundling the external collaborators (log store, script
list, HTTP transport outcome, clock, CPU-budget oracle).
-/

/-! ## C `sscanf` directive model

Only the directives used by the source format strings are modelled:
`%d` (skip whitespace, optional sign, one or more decimal digits),
`%c` (read exactly one character, no whitespace skip),
a literal character (must match the next input character exactly), and
a whitespace character in the format (skips any amount of input
whitespace, including none).  A match failure makes the overall `sscanf`
return the number of conversions completed so far; the source compares
that count against the full count, so each modelled pattern returns
`some fields` exactly when the source's count test succeeds. -/

def isWsC (c : Char) : Bool :=
  c = ' ' || c = '\t' || c = '\n' || c = '\x0b' || c = '\x0c' || c = '\r'

def dropWs : List Char → List Char
  | [] => []
  | c :: cs => if isWsC c then dropWs cs else c :: cs

def digitVal (c : Char) : Nat := c.toNat - 48

def digitsVal (ds : List Char) : Nat :=
  ds.foldl (fun a c => 10 * a + digitVal c) 0

/-- `%d`: skip whitespace, optional single sign, then a nonempty run of
decimal digits (greedy).  Returns the signed value and the rest. -/
def readInt (cs : List Char) : Option (Int × List Char) :=
  let cs1 := dropWs cs
  let sgn : Int × List Char :=
    match cs1 with
    | [] => (1, [])
    | c :: t =>
        if c = '+' then (1, t)
        else if c = '-' then (-1, t)
        else (1, c :: t)
  let ds := sgn.2.takeWhile Char.isDigit
  let rest := sgn.2.dropWhile Char.isDigit
  if ds.isEmpty then none else some (sgn.1 * (digitsVal ds : Int), rest)

/-- A literal (non-whitespace) character in the format string. -/
def litc (c : Char) : List Char → Option (List Char)
  | [] => none
  | c' :: cs => if c' = c then some cs else none

/-- `%c`: exactly one character, any character, no whitespace skip. -/
def readChar : List Char → Option (Char × List Char)
  | [] => none
  | c :: cs => some (c, cs)

/-- The `%d-%d-%d` prefix shared by all five source patterns. -/
def scanDate (cs : List Char) : Option (Int × Int × Int × List Char) := do
  let (y, r1) ← readInt cs
  let r2 ← litc '-' r1
  let (m, r3) ← readInt r2
  let r4 ← litc '-' r3
  let (d, r5) ← readInt r4
  some (y, m, d, r5)

/-- The `%d:%d:%d` time-of-day group. -/
def scanTime (cs : List Char) : Option (Int × Int × Int × List Char) := do
  let (h, r1) ← readInt cs
  let r2 ← litc ':' r1
  let (mi, r3) ← readInt r2
  let r4 ← litc ':' r3
  let (s, r5) ← readInt r4
  some (h, mi, s, r5)

/-- Source pattern 1, `"%d-%d-%d %d:%d:%d%c%d:%d"` compared against 9. -/
def scan1 (cs : List Char) :
    Option (Int × Int × Int × Int × Int × Int × Char × Int × Int) := do
  let (y, m, d, r1) ← scanDate cs
  let (h, mi, s, r2) ← scanTime r1
  let (sg, r3) ← readChar r2
  let (th, r4) ← readInt r3
  let r5 ← litc ':' r4
  let (tm, _) ← readInt r5
  some (y, m, d, h, mi, s, sg, th, tm)

/-- Source pattern 2, `"%d-%d-%d %d:%d:%d%c%d"` compared against 8. -/
def scan2 (cs : List Char) :
    Option (Int × Int × Int × Int × Int × Int × Char × Int) := do
  let (y, m, d, r1) ← scanDate cs
  let (h, mi, s, r2) ← scanTime r1
  let (sg, r3) ← readChar r2
  let (th, _) ← readInt r3
  some (y, m, d, h, mi, s, sg, th)

/-- Source patterns 3 and 4, `"%d-%d-%dT%d:%d:%dZ"` and
`"%d-%d-%dT%d:%d:%d"`, both compared against 6.  The trailing literal `Z`
of pattern 3 comes after the sixth (last) conversion, so its success or
failure cannot change the value `sscanf` returns: both source calls accept
exactly the same inputs and bind the same six fields. -/
def scanISO (cs : List Char) : Option (Int × Int × Int × Int × Int × Int) := do
  let (y, m, d, r1) ← scanDate cs
  let r2 ← litc 'T' r1
  let (h, mi, s, _) ← scanTime r2
  some (y, m, d, h, mi, s)

/-- Source pattern 5, `"%d-%d-%d %d:%d:%d"` compared against 6. -/
def scan5 (cs : List Char) : Option (Int × Int × Int × Int × Int × Int) := do
  let (y, m, d, r1) ← scanDate cs
  let (h, mi, s, _) ← scanTime r1
  some (y, m, d, h, mi, s)

/-! ## Calendar arithmetic (spec-modelled externals)

`Unixtime(year, month, day, hour, minute, second)` and
`datef(t, "YYYY-MM-DDThh:mm:ssZ")` live in the firmware outside the
reviewed unit.  Following the spec they are the exact Gregorian UTC
conversions.  All definitions use fuel-free structural recursion so that
concrete witnesses evaluate in the kernel. -/

def isLeap (y : Nat) : Bool :=
  (y % 4 = 0 && y % 100 ≠ 0) || y % 400 = 0

def daysInYear (y : Nat) : Nat := if isLeap y then 366 else 365

def monthDays (leap : Bool) (m : Nat) : Nat :=
  match m with
  | 1 => 31 | 2 => if leap then 29 else 28 | 3 => 31 | 4 => 30
  | 5 => 31 | 6 => 30 | 7 => 31 | 8 => 31
  | 9 => 30 | 10 => 31 | 11 => 30 | 12 => 31
  | _ => 0

/-- Days strictly before month `m` (1-based) within a year. -/
def cumMonthDays (leap : Bool) : Nat → Nat
  | 0 => 0
  | 1 => 0
  | m + 1 => cumMonthDays leap m + monthDays leap m

/-- Days contributed by `l` consecutive years starting at year `1970 + k`. -/
def sumYears (k : Nat) : Nat → Nat
  | 0 => 0
  | l + 1 => daysInYear (1970 + k) + sumYears (k + 1) l

/-- Days since 1970-01-01 of the civil date `y-m-d` (`y ≥ 1970`). -/
def daysFromCivil (y m d : Nat) : Nat :=
  sumYears 0 (y - 1970) + cumMonthDays (isLeap y) m + (d - 1)

/-- Exact (unwrapped) UNIX seconds of a valid civil date-time. -/
def unixOfCivil (y m d h mi s : Nat) : Nat :=
  86400 * daysFromCivil y m d + 3600 * h + 60 * mi + s

/-- Field validity for the civil conversion. -/
def validCivil (y m d h mi s : Int) : Bool :=
  1970 ≤ y && 1 ≤ m && m ≤ 12 &&
  1 ≤ d && d ≤ (monthDays (isLeap y.toNat) m.toNat : Int) &&
  0 ≤ h && h < 24 && 0 ≤ mi && mi < 60 && 0 ≤ s && s < 60

/-- Modelled from the spec: the firmware helper `Unixtime(...)` (declared in
the header, defined outside the reviewed unit) converting naive civil
fields to an absolute UTC timestamp, returned as `uint32_t` (hence the
reduction modulo `2^32`).  The spec does not constrain its behaviour on
invalid fields; out-of-range fields are modelled as 0. -/
def Unixtime (y m d h mi s : Int) : Nat :=
  if validCivil y m d h mi s then
    unixOfCivil y.toNat m.toNat d.toNat h.toNat mi.toNat s.toNat % 4294967296
  else 0

/-- `uint32_t` subtraction of an `int32_t` offset: `utcTime - tzOffsetSeconds`. -/
def sub32 (u : Nat) (off : Int) : Nat :=
  (((u : Int) - off) % 4294967296).toNat

/-- Sign handling of lines 174-178 / 189-193: the offset is negated exactly
when the `%c`-captured character is `'-'`; any other captured character
leaves it positive. -/
def tzApply (sg : Char) (off : Int) : Int := if sg = '-' then -off else off

/-- `parseTimestamp` (lines 163-218), over the string's character list.
The five `sscanf` patterns are tried in source order; the first whose
conversion count reaches the compared value wins; a fall-through returns 0.
Patterns 3 and 4 accept the same inputs (see `scanISO`), so the collapsed
branch is taken for both. -/
def parseTimestampL (cs : List Char) : Nat :=
  match scan1 cs with
  | some (y, m, d, h, mi, s, sg, th, tm) =>
      sub32 (Unixtime y m d h mi s) (tzApply sg (th * 3600 + tm * 60))
  | none =>
  match scan2 cs with
  | some (y, m, d, h, mi, s, sg, th) =>
      sub32 (Unixtime y m d h mi s) (tzApply sg (th * 3600))
  | none =>
  match scanISO cs with
  | some (y, m, d, h, mi, s) => Unixtime y m d h mi s
  | none =>
  match scan5 cs with
  | some (y, m, d, h, mi, s) => Unixtime y m d h mi s
  | none => 0

def parseTimestamp (s : String) : Nat := parseTimestampL s.data

/-! ### Rendering (the `datef` direction) -/

/-- Decimal digits of `n`, most significant first (fuel = `n` itself; the
recursion divides by 10, so `n` bounds the depth). -/
def natDigitsF : Nat → Nat → List Char
  | 0, _ => []
  | f + 1, n =>
      if n < 10 then [Char.ofNat (48 + n)]
      else natDigitsF f (n / 10) ++ [Char.ofNat (48 + n % 10)]

def natDigits (n : Nat) : List Char := natDigitsF (n + 1) n

/-- Zero-padded decimal rendering to width `w`. -/
def zpad (w n : Nat) : List Char :=
  List.replicate (w - (natDigits n).length) '0' ++ natDigits n

/-- Year lookup: starting from year `1970 + k`, peel whole years off the
day count `n`.  Fuel `n + 1` suffices since each step removes ≥ 365 days. -/
def toYearAux : Nat → Nat → Nat → Nat × Nat
  | 0, k, n => (k, n)
  | fuel + 1, k, n =>
      if n < daysInYear (1970 + k) then (k, n)
      else toYearAux fuel (k + 1) (n - daysInYear (1970 + k))

/-- Month lookup within a year: day-of-year `r` to (month, day-of-month-1). -/
def toMonthAux : Nat → Bool → Nat → Nat → Nat × Nat
  | 0, _, m, r => (m, r)
  | fuel + 1, leap, m, r =>
      if 12 ≤ m then (m, r)
      else if r < monthDays leap m then (m, r)
      else toMonthAux fuel leap (m + 1) (r - monthDays leap m)

/-- UNIX seconds to civil UTC fields `(y, m, d, h, mi, s)`. -/
def civilFromUnix (t : Nat) : Nat × Nat × Nat × Nat × Nat × Nat :=
  let days := t / 86400
  let rem := t % 86400
  let yr := toYearAux (days + 1) 0 days
  let y := 1970 + yr.1
  let md := toMonthAux 12 (isLeap y) 1 yr.2
  (y, md.1, md.2 + 1, rem / 3600, rem % 3600 / 60, rem % 60)

/-- `YYYY-MM-DD` prefix followed by `rest` (also the shape of the spec's
five accepted textual variants, zero-padded). -/
def renderDate (y m d : Nat) (rest : List Char) : List Char :=
  zpad 4 y ++ '-' :: (zpad 2 m ++ '-' :: (zpad 2 d ++ rest))

/-- `hh:mm:ss` group followed by `rest`. -/
def renderTime (h mi s : Nat) (rest : List Char) : List Char :=
  zpad 2 h ++ ':' :: (zpad 2 mi ++ ':' :: (zpad 2 s ++ rest))

/-- Modelled from the spec: `datef(t, "YYYY-MM-DDThh:mm:ssZ")` (line 399),
the canonical ISO-8601 UTC rendering with literal `Z`, defined outside the
reviewed unit. -/
def formatTimestampL (t : Nat) : List Char :=
  let c := civilFromUnix t
  renderDate c.1 c.2.1 c.2.2.1
    ('T' :: renderTime c.2.2.2.1 c.2.2.2.2.1 c.2.2.2.2.2 ['Z'])

def formatTimestamp (t : Nat) : String := String.mk (formatTimestampL t)

/-! ## Part 2: the uploader state machine

External collaborators are abstracted per the spec: the log store is a
key→record oracle (`readKey` fills a record for a requested timestamp),
scripts are opaque named, unit-tagged value producers returning a scalar
or the not-a-number sentinel (`Option ℚ`, `none` = NaN, mirroring the
source's `value == value` test), and `%.*f` rendering of a double is an
opaque environment function (no claim depends on its digits, only on the
byte length it contributes to `reqData.available()`). -/

/-- `IotaLogRecord` as used by this unit: the key and the cumulative
log-hours field; everything else a script reads is folded into the opaque
`Script.run`.  `logHours` is a `double` in the source; the uploader only
subtracts two of them and compares the difference with zero exactly, so
it is modelled over `Int` (an exact totally-ordered group on which the
kernel can evaluate), and the fractional magnitude is irrelevant to every
claim. -/
structure LogRec where
  UNIXtime : Nat
  logHours : Int
  deriving DecidableEq, Repr

/-- An output `Script`: immutable name, unit-kind index, precision, and the
opaque evaluation over a record pair (`none` models an IEEE NaN result,
for which the source's `value == value` test is false). -/
structure Script where
  name : String
  unitsEnum : Nat
  precision : Nat
  run : LogRec → LogRec → Option ℚ

/-- The external current log: `firstKey()`, `lastKey()`, and the
`logHours` content `readKey` fills in for a requested key. -/
structure LogModel where
  firstKey : Nat
  lastKey : Nat
  hoursAt : Nat → Int

/-- `Current_log.readKey(r)` with `r->UNIXtime = t`. -/
def readKey (log : LogModel) (t : Nat) : LogRec := ⟨t, log.hoursAt t⟩

/-- Environment: configuration plus all external collaborators. -/
structure Env where
  interval : Nat
  bulkSend : Nat
  bufferLimit : Nat
  uploadStartDate : Nat
  utcNow : Nat
  yield : Nat → Bool
  log : LogModel
  scripts : List Script
  unitsCount : Nat
  unitActive : Nat → Bool
  unitstr : Nat → String
  device : String
  render : ℚ → Nat → String
  extractTs : String → Option String

/-- One printed piece of the accumulating `reqData` text buffer. -/
inductive Chunk where
  | header (s : String)
  | rowStart (t : Nat) (dev sensor : String)
  | nullCell
  | valCell (v : ℚ) (prec : Nat)
  | newline
  deriving DecidableEq, Repr

/-- Byte length each chunk contributes to `reqData.available()`.
A row start is `"\n%s,%s,%s"`; a null cell is `",NULL"`; a value cell is
`","` plus the `%.*f` rendering; the row timestamp string is the `datef`
rendering of the record key. -/
def chunkLen (env : Env) : Chunk → Nat
  | .header s => s.length
  | .rowStart t dev sensor =>
      1 + (formatTimestamp t).length + 1 + dev.length + 1 + sensor.length
  | .nullCell => 5
  | .valCell v p => 1 + (env.render v p).length
  | .newline => 1

def avail (env : Env) (buf : List Chunk) : Nat :=
  (buf.map (chunkLen env)).sum

/-- Column names appended to the CSV header for active units `i < n`
(configCB lines 137-144). -/
def hdrCols (env : Env) (i : Nat) : Nat → String
  | 0 => ""
  | n + 1 =>
      (if env.unitActive i then "," ++ env.unitstr i else "") ++
        hdrCols env (i + 1) n

/-- The cached `_CSVheader` built by `configCB` (lines 136-146). -/
def mkCSVheader (env : Env) : String :=
  "timestamp,device,sensor" ++ hdrCols env 0 env.unitsCount

/-- The source's `while (unitIndex < bound) { if (_unit_active[unitIndex++])
reqData.print(",NULL"); }`: emit a null cell for every active unit index in
`[i, i+n)` (`n` = `bound - i`). -/
def nullFill (env : Env) (i : Nat) : Nat → List Chunk
  | 0 => []
  | n + 1 =>
      (if env.unitActive i then [Chunk.nullCell] else []) ++
        nullFill env (i + 1) n

/-- The script loop of `handle_write_s` (lines 413-466): walk the sorted
script list, carrying the current sensor name and the unit cursor; returns
the emitted chunks and the final cursor.  NB the sensor-change close-out
only runs for scripts whose evaluation is a number (the whole block is
inside `if (value == value)`). -/
def emitScripts (env : Env) (old new : LogRec) (t : Nat) :
    String → Nat → List Script → List Chunk × Nat
  | _, unitIndex, [] => ([], unitIndex)
  | sensor, unitIndex, sc :: rest =>
    match sc.run old new with
    | none => emitScripts env old new t sensor unitIndex rest
    | some v =>
      let pre : List Chunk × String × Nat :=
        if sensor = sc.name then ([], sensor, unitIndex)
        else (nullFill env unitIndex (env.unitsCount - unitIndex) ++
                [Chunk.rowStart t env.device sc.name], sc.name, 0)
      let idx1 := pre.2.2
      let fill := nullFill env idx1 (sc.unitsEnum - idx1)
      let idx2 := max idx1 sc.unitsEnum
      let valC : List Chunk × Nat :=
        if idx2 = sc.unitsEnum then ([Chunk.valCell v sc.precision], idx2 + 1)
        else ([], idx2)
      let tail := emitScripts env old new t pre.2.1 valC.2 rest
      (pre.1 ++ fill ++ valC.1 ++ tail.1, tail.2)

/-- The per-pair row assembly (lines 397-477): format the old record's
timestamp, start the first row with the first script's sensor name, run
the script loop, close out the last row.  The source dereferences
`_outputs->first()` unconditionally, so an empty script list is undefined
behaviour there; it is modelled as emitting nothing. -/
def assemblePair (env : Env) (old new : LogRec) : List Chunk :=
  match env.scripts with
  | [] => []
  | s0 :: _ =>
    let t := old.UNIXtime
    let r := emitScripts env old new t s0.name 0 env.scripts
    Chunk.rowStart t env.device s0.name :: r.1 ++
      nullFill env r.2 (env.unitsCount - r.2)

/-- Exit kind of the record-pair loop. -/
inductive LExit where
  | fuelOut | yield | stallRetry | stallDefer | done
  deriving DecidableEq, Repr

structure LoopOut where
  exit : LExit
  old : LogRec
  new : LogRec
  buf : List Chunk
  lastPost : Nat
  deriving Repr

/-- The record-pair loop of `handle_write_s` (lines 370-480).  Each
iteration: CPU-budget check (`micros() > bingoTime`, modelled by the
oracle `env.yield` applied to the iteration ordinal), pointer swap plus
`readKey` of the next interval key, the zero-elapsed-hours stall check,
then row assembly and the `_lastPost` update.  Fuel only bounds the
recursion; `handle_write_s` passes enough for the loop condition to decide
every exit. -/
def writeLoop (env : Env) : Nat → Nat → LogRec → LogRec → List Chunk → Nat →
    LoopOut
  | 0, _, old, new, buf, lastPost => ⟨.fuelOut, old, new, buf, lastPost⟩
  | fuel + 1, iter, old, new, buf, lastPost =>
    if avail env buf < env.bufferLimit ∧ new.UNIXtime < env.log.lastKey then
      if env.yield iter then ⟨.yield, old, new, buf, lastPost⟩
      else
        -- pointer swap: the old cursor becomes the previous new record,
        -- and the new cursor is read at the next interval key
        if (readKey env.log (new.UNIXtime + env.interval)).logHours -
            new.logHours = 0 then
          if (readKey env.log (new.UNIXtime + env.interval)).UNIXtime +
              env.interval ≤ env.log.lastKey then
            ⟨.stallRetry, new, readKey env.log (new.UNIXtime + env.interval),
              buf, lastPost⟩
          else
            ⟨.stallDefer, new, readKey env.log (new.UNIXtime + env.interval),
              buf, lastPost⟩
        else
          writeLoop env fuel (iter + 1) new
            (readKey env.log (new.UNIXtime + env.interval))
            (buf ++ assemblePair env new
              (readKey env.log (new.UNIXtime + env.interval)))
            new.UNIXtime
    else ⟨.done, old, new, buf, lastPost⟩

/-- Uploader phases (`_state`). -/
inductive Phase where
  | query | checkQuery | write | checkWrite | stopped
  deriving DecidableEq, Repr

/-- The async transport handle as observed by the settle steps. -/
structure Req where
  readyState : Nat
  httpCode : Int
  responseText : String
  deriving DecidableEq, Repr

/-- Uploader mutable state touched by the modelled handlers. -/
structure St where
  phase : Phase
  lastSent : Nat
  lastPost : Nat
  oldRecord : Option LogRec
  newRecord : Option LogRec
  reqData : List Chunk
  request : Option Req
  statusMessage : Option String
  stop : Bool
  deriving Repr, DecidableEq

/-- Result communicated by a `handle_write_s` invocation: the return-code
path taken (the spec's `StepResult`), with the submitted payload attached
to the POST path. -/
inductive WExit where
  | stopped
  | deferNoData
  | cpuYield
  | stallRetry
  | stallDefer
  | flushedEmpty
  | posted (payload : List Chunk)
  | fuelOut
  deriving DecidableEq, Repr

/-- Lines 357-363: when no record cursors are held, allocate a fresh pair
and read the new record at `lastSent + interval` (the source only tests
`!oldRecord`; the cursors are always allocated and freed in pairs, so the
paired test is equivalent; the freshly allocated old record is
default-initialised and is overwritten by the first swap). -/
def writeRecsInit (env : Env) (st : St) : LogRec × LogRec :=
  match st.oldRecord, st.newRecord with
  | some o, some n => (o, n)
  | _, _ => (⟨0, 0⟩, readKey env.log (st.lastSent + env.interval))

/-- Lines 365-368: print the CSV header into an empty buffer. -/
def writeBufInit (env : Env) (st : St) : List Chunk :=
  if avail env st.reqData = 0 then
    st.reqData ++ [Chunk.header (mkCSVheader env)]
  else st.reqData

/-- Lines 481-508: after the loop, print the final newline, flush-and-defer
a buffer of at most one byte, otherwise free the cursors and POST. -/
def writeFinish (env : Env) (st : St) (r : LoopOut) : WExit × St :=
  match r.exit with
  | .fuelOut => (.fuelOut, st)
  | .yield =>
      (.cpuYield, { st with oldRecord := some r.old,
                             newRecord := some r.new,
                             reqData := r.buf, lastPost := r.lastPost })
  | .stallRetry =>
      (.stallRetry, { st with oldRecord := some r.old,
                               newRecord := some r.new,
                               reqData := r.buf, lastPost := r.lastPost })
  | .stallDefer =>
      (.stallDefer, { st with oldRecord := some r.old,
                               newRecord := some r.new,
                               reqData := r.buf, lastPost := r.lastPost })
  | .done =>
      if avail env (r.buf ++ [Chunk.newline]) ≤ 1 then
        (.flushedEmpty, { st with oldRecord := none, newRecord := none,
                                   reqData := [], lastPost := r.lastPost })
      else
        (.posted (r.buf ++ [Chunk.newline]),
          { st with oldRecord := none, newRecord := none,
                     reqData := [], lastPost := r.lastPost,
                     phase := .checkWrite })

/-- The pair loop as entered by `handle_write_s`: initialised cursors,
header-seeded buffer, current `_lastPost`, and fuel ample for the loop
condition to decide every exit. -/
def writeLoopRun (env : Env) (st : St) : LoopOut :=
  writeLoop env (env.log.lastKey + 1) 0 (writeRecsInit env st).1
    (writeRecsInit env st).2 (writeBufInit env st) st.lastPost

/-- `handle_write_s` (lines 334-509). -/
def handle_write_s (env : Env) (st : St) : WExit × St :=
  if st.stop then
    (.stopped, { st with phase := .stopped, oldRecord := none,
                          newRecord := none })
  else
    if env.log.lastKey <
        st.lastSent + env.interval + env.interval * env.bulkSend then
      (.deferNoData, { st with oldRecord := none, newRecord := none })
    else
      writeFinish env st (writeLoopRun env st)

/-- Exit taken by `handle_checkWrite_s`. -/
inductive CWExit where
  | wait | transportFail | success | httpFail
  deriving DecidableEq, Repr

/-- The bounded diagnostic message of lines 545-554 (content opaque to all
claims; the `snprintf` truncation is not modelled). -/
def postFailMsg (code : Int) (body : String) : String :=
  if code < 0 then "POST failed, code " ++ toString code
  else "POST failed, code " ++ toString code ++ ", response: " ++ body

/-- `handle_checkWrite_s` (lines 514-563).  NB: a present but not-yet-final
request (`readyState() != 4`) is treated as a failure (request discarded,
back to the write phase), unlike the query settle step. -/
def handle_checkWrite_s (_env : Env) (st : St) : CWExit × St :=
  match st.request with
  | none => (.wait, st)
  | some req =>
    if req.readyState ≠ 4 then
      (.transportFail, { st with request := none, phase := .write })
    else
      if req.httpCode = 201 then
        (.success, { st with statusMessage := none,
                              lastSent := st.lastPost, phase := .write })
      else
        (.httpFail, { st with request := none, phase := .write,
                               statusMessage :=
                                 some (postFailMsg req.httpCode
                                         req.responseText) })

/-- Exit taken by `handle_checkQuery_s`. -/
inductive CQExit where
  | wait | failRetry | success
  deriving DecidableEq, Repr

def queryFailMsg (code : Int) (body : String) : String :=
  if code < 0 then "Query failed, code " ++ toString code
  else "Query failed, code " ++ toString code ++ ", response: " ++ body

/-- `handle_checkQuery_s` (lines 253-326).  The JSON-array decoding of the
response body (`DynamicJsonBuffer`/`parseArray`, lines 292-308) is an
external library; it is abstracted by `env.extractTs`, which yields the
`timestamp` field of the first element when the body parses as a nonempty
array containing one.  The watermark arithmetic of lines 310-313 is
verbatim. -/
def handle_checkQuery_s (env : Env) (st : St) : CQExit × St :=
  match st.request with
  | none => (.wait, st)
  | some req =>
    if req.readyState ≠ 4 then (.wait, st)
    else
      if req.httpCode ≠ 200 then
        (.failRetry, { st with request := none, phase := .query,
                                statusMessage :=
                                  some (queryFailMsg req.httpCode
                                          req.responseText) })
      else
        let ls0 :=
          match env.extractTs req.responseText with
          | some tsStr =>
              let t := parseTimestamp tsStr
              if 0 < t then t else st.lastSent
          | none => st.lastSent
        let ls1 := max ls0 env.uploadStartDate
        let ls2 := max ls1 env.log.firstKey
        (.success, { st with statusMessage := none, request := none,
                              phase := .write,
                              lastSent := ls2 - ls2 % env.interval })

/-! ### Observation functions on the buffer -/

/-- Timestamps of the data rows present in a chunk list. -/
def rowTs (buf : List Chunk) : List Nat :=
  buf.filterMap fun c =>
    match c with
    | .rowStart t _ _ => some t
    | _ => none

/-- Timestamp of the newest (last-started) data row, if any. -/
def lastRowTs (buf : List Chunk) : Option Nat := (rowTs buf).getLast?

/-- A decoded CSV cell. -/
inductive Cell where
  | null
  | val (v : ℚ) (prec : Nat)
  deriving DecidableEq, Repr

/-- A decoded data row. -/
structure Row where
  ts : Nat
  sensor : String
  cells : List Cell
  deriving DecidableEq, Repr

def rowsAux : List Chunk → Option Row → List Row
  | [], cur => match cur with | some r => [r] | none => []
  | c :: cs, cur =>
    match c with
    | .rowStart t _ sensor =>
        (match cur with | some r => [r] | none => []) ++
          rowsAux cs (some ⟨t, sensor, []⟩)
    | .nullCell =>
        rowsAux cs (cur.map fun r => { r with cells := r.cells ++ [.null] })
    | .valCell v p =>
        rowsAux cs (cur.map fun r =>
          { r with cells := r.cells ++ [.val v p] })
    | _ => rowsAux cs cur

/-- The data rows encoded in a chunk list, in emission order. -/
def rowsOf (buf : List Chunk) : List Row := rowsAux buf none

/-! ## Codec lemmas -/

lemma digitsVal_append_single (ds : List Char) (c : Char) :
    digitsVal (ds ++ [c]) = 10 * digitsVal ds + digitVal c := by
  simp [digitsVal, List.foldl_append]

lemma natDigitsF_spec (fuel : Nat) : ∀ n, n < fuel →
    digitsVal (natDigitsF fuel n) = n ∧ natDigitsF fuel n ≠ [] ∧
    ∀ c ∈ natDigitsF fuel n, c.isDigit = true := by
  induction fuel using Nat.strong_induction_on with
  | _ fuel ih =>
    cases fuel with
    | zero => exact fun n h => absurd h (by omega)
    | succ f =>
      intro n hn
      by_cases h10 : n < 10
      · have hv : ∀ m, m < 10 → digitsVal [Char.ofNat (48 + m)] = m ∧
            (Char.ofNat (48 + m)).isDigit = true := by decide
        simp only [natDigitsF, if_pos h10]
        refine ⟨(hv n h10).1, by simp, ?_⟩
        intro c hc
        simp only [List.mem_singleton] at hc
        subst hc
        exact (hv n h10).2
      · simp only [natDigitsF, if_neg h10]
        have hdiv : n / 10 < n := Nat.div_lt_self (by omega) (by omega)
        have ihn := ih f (by omega) (n / 10) (by omega)
        have hlast : digitVal (Char.ofNat (48 + n % 10)) = n % 10 ∧
            (Char.ofNat (48 + n % 10)).isDigit = true := by
          have : ∀ m, m < 10 → digitVal (Char.ofNat (48 + m)) = m ∧
              (Char.ofNat (48 + m)).isDigit = true := by decide
          exact this _ (Nat.mod_lt _ (by omega))
        refine ⟨?_, by simp, ?_⟩
        · rw [digitsVal_append_single, ihn.1, hlast.1]
          omega
        · intro c hc
          rcases List.mem_append.mp hc with h | h
          · exact ihn.2.2 c h
          · simp only [List.mem_singleton] at h
            subst h
            exact hlast.2

lemma natDigits_spec (n : Nat) :
    digitsVal (natDigits n) = n ∧ natDigits n ≠ [] ∧
    ∀ c ∈ natDigits n, c.isDigit = true :=
  natDigitsF_spec (n + 1) n (Nat.lt_succ_self n)

lemma digitsVal_cons_zero (ds : List Char) :
    digitsVal ('0' :: ds) = digitsVal ds := by
  simp [digitsVal, digitVal]

lemma digitsVal_zeros (k : Nat) (ds : List Char) :
    digitsVal (List.replicate k '0' ++ ds) = digitsVal ds := by
  induction k with
  | zero => simp
  | succ k ihk => simpa [List.replicate_succ, digitsVal_cons_zero] using ihk

lemma zpad_spec (w n : Nat) :
    digitsVal (zpad w n) = n ∧ zpad w n ≠ [] ∧
    ∀ c ∈ zpad w n, c.isDigit = true := by
  obtain ⟨h1, h2, h3⟩ := natDigits_spec n
  refine ⟨by rw [zpad, digitsVal_zeros, h1], by simp [zpad, h2], ?_⟩
  intro c hc
  rcases List.mem_append.mp hc with h | h
  · rw [List.eq_of_mem_replicate h]
    decide
  · exact h3 c h

/-- Head of the remaining input is not a digit (so a `%d` digit run stops
exactly at the rendered digits). -/
def noDigitHead : List Char → Bool
  | [] => true
  | c :: _ => !c.isDigit

lemma isWsC_false_of_digit (c : Char) (h : c.isDigit = true) :
    isWsC c = false := by
  by_contra hw
  have hw' : isWsC c = true := by
    revert hw
    cases isWsC c <;> simp
  have : c = ' ' ∨ c = '\t' ∨ c = '\n' ∨ c = '\x0b' ∨ c = '\x0c' ∨
      c = '\r' := by
    simpa [isWsC, or_assoc] using hw'
  rcases this with rfl | rfl | rfl | rfl | rfl | rfl <;> simp_all

lemma dropWs_cons_of_not_ws (c : Char) (cs : List Char)
    (h : isWsC c = false) : dropWs (c :: cs) = c :: cs := by
  simp [dropWs, h]

lemma takeWhile_digits (ds : List Char) (rest : List Char)
    (hds : ∀ c ∈ ds, c.isDigit = true) (hrest : noDigitHead rest = true) :
    (ds ++ rest).takeWhile Char.isDigit = ds ∧
    (ds ++ rest).dropWhile Char.isDigit = rest := by
  induction ds with
  | nil =>
    cases rest with
    | nil => simp
    | cons c t =>
      simp only [noDigitHead, Bool.not_eq_true'] at hrest
      simp [List.takeWhile, List.dropWhile, hrest]
  | cons d ds ihd =>
    have hd : d.isDigit = true := hds d (by simp)
    have ih := ihd (fun c hc => hds c (by simp [hc]))
    simp [List.takeWhile, List.dropWhile, hd, ih.1, ih.2]

lemma readInt_pad (w n : Nat) (rest : List Char)
    (hrest : noDigitHead rest = true) :
    readInt (zpad w n ++ rest) = some ((n : Int), rest) := by
  obtain ⟨hval, hne, hdig⟩ := zpad_spec w n
  obtain ⟨c, cs, hcons⟩ := List.exists_cons_of_ne_nil hne
  have hcd : c.isDigit = true := hdig c (by rw [hcons]; simp)
  have hspan := takeWhile_digits (zpad w n) rest hdig hrest
  have hplus : (c = '+') = False := by
    revert hcd
    by_cases h : c = '+' <;> simp_all
  have hminus : (c = '-') = False := by
    revert hcd
    by_cases h : c = '-' <;> simp_all
  rw [readInt, hcons, List.cons_append,
    dropWs_cons_of_not_ws c _ (isWsC_false_of_digit c hcd)]
  simp only [hplus, hminus, if_false, ← List.cons_append, ← hcons]
  rw [hspan.1, hspan.2]  -- hmm let-bound: may need simp
  simp [hval, List.isEmpty_eq_true, hne]

lemma litc_cons (c : Char) (cs : List Char) : litc c (c :: cs) = some cs := by
  simp [litc]

lemma noDigitHead_cons (c : Char) (l : List Char) :
    noDigitHead (c :: l) = !c.isDigit := rfl

lemma dash_not_digit : ('-').isDigit = false := by decide

lemma colon_not_digit : (':').isDigit = false := by decide

lemma tee_not_digit : ('T').isDigit = false := by decide

lemma zee_not_digit : ('Z').isDigit = false := by decide

lemma scanDate_render (y m d : Nat) (rest : List Char)
    (hrest : noDigitHead rest = true) :
    scanDate (renderDate y m d rest) =
      some ((y : Int), (m : Int), (d : Int), rest) := by
  rw [renderDate, scanDate]
  rw [readInt_pad 4 y _ (by simp [noDigitHead_cons, dash_not_digit])]
  simp only [Option.bind_eq_bind, Option.some_bind, litc_cons]
  rw [readInt_pad 2 m _ (by simp [noDigitHead_cons, dash_not_digit])]
  simp only [Option.some_bind, litc_cons]
  rw [readInt_pad 2 d rest hrest]
  simp only [Option.some_bind]

lemma scanTime_render (h mi s : Nat) (rest : List Char)
    (hrest : noDigitHead rest = true) :
    scanTime (renderTime h mi s rest) =
      some ((h : Int), (mi : Int), (s : Int), rest) := by
  rw [renderTime, scanTime]
  rw [readInt_pad 2 h _ (by simp [noDigitHead_cons, colon_not_digit])]
  simp only [Option.bind_eq_bind, Option.some_bind, litc_cons]
  rw [readInt_pad 2 mi _ (by simp [noDigitHead_cons, colon_not_digit])]
  simp only [Option.some_bind, litc_cons]
  rw [readInt_pad 2 s rest hrest]
  simp only [Option.some_bind]

lemma scanTime_tee (l : List Char) : scanTime ('T' :: l) = none := by
  have : readInt ('T' :: l) = none := by
    rw [readInt, dropWs_cons_of_not_ws 'T' l (by decide)]
    simp [List.takeWhile]
  rw [scanTime, this]
  rfl

lemma scan1_tee (y m d : Nat) (l : List Char) :
    scan1 (renderDate y m d ('T' :: l)) = none := by
  rw [scan1, scanDate_render y m d _ (by simp [noDigitHead_cons, tee_not_digit])]
  simp only [Option.bind_eq_bind, Option.some_bind, scanTime_tee]
  rfl

lemma scan2_tee (y m d : Nat) (l : List Char) :
    scan2 (renderDate y m d ('T' :: l)) = none := by
  rw [scan2, scanDate_render y m d _ (by simp [noDigitHead_cons, tee_not_digit])]
  simp only [Option.bind_eq_bind, Option.some_bind, scanTime_tee]
  rfl

lemma scanISO_render (y m d h mi s : Nat) (tail : List Char)
    (htail : noDigitHead tail = true) :
    scanISO (renderDate y m d ('T' :: renderTime h mi s tail)) =
      some ((y : Int), (m : Int), (d : Int), (h : Int), (mi : Int),
        (s : Int)) := by
  rw [scanISO, scanDate_render y m d _ (by simp [noDigitHead_cons, tee_not_digit])]
  simp only [Option.bind_eq_bind, Option.some_bind, litc_cons]
  rw [scanTime_render h mi s tail htail]
  simp only [Option.some_bind]

/-! ### Calendar inverse -/

lemma daysInYear_pos (y : Nat) : 365 ≤ daysInYear y := by
  rw [daysInYear]
  split <;> omega

lemma sumYears_succ (k l : Nat) :
    sumYears k (l + 1) = daysInYear (1970 + k) + sumYears (k + 1) l := rfl

lemma toYearAux_spec (fuel : Nat) : ∀ k n, n < fuel →
    k ≤ (toYearAux fuel k n).1 ∧
    (toYearAux fuel k n).2 < daysInYear (1970 + (toYearAux fuel k n).1) ∧
    sumYears k ((toYearAux fuel k n).1 - k) + (toYearAux fuel k n).2 = n := by
  induction fuel with
  | zero => exact fun k n h => absurd h (by omega)
  | succ f ihf =>
    intro k n hn
    by_cases hl : n < daysInYear (1970 + k)
    · simp only [toYearAux, if_pos hl]
      exact ⟨Nat.le_refl k, hl, by simp [sumYears]⟩
    · have hd := daysInYear_pos (1970 + k)
      have hrec : n - daysInYear (1970 + k) < f := by omega
      have ih := ihf (k + 1) (n - daysInYear (1970 + k)) hrec
      simp only [toYearAux, if_neg hl]
      set res := toYearAux f (k + 1) (n - daysInYear (1970 + k)) with hres
      refine ⟨by omega, ih.2.1, ?_⟩
      have hjk : res.1 - k = (res.1 - (k + 1)) + 1 := by omega
      rw [hjk, sumYears_succ]
      omega

set_option maxRecDepth 100000 in
lemma toMonth_spec (leap : Bool) :
    ∀ r, r < (if leap then 366 else 365) →
    cumMonthDays leap (toMonthAux 12 leap 1 r).1 +
        (toMonthAux 12 leap 1 r).2 = r ∧
    (toMonthAux 12 leap 1 r).2 < monthDays leap (toMonthAux 12 leap 1 r).1 ∧
    1 ≤ (toMonthAux 12 leap 1 r).1 ∧ (toMonthAux 12 leap 1 r).1 ≤ 12 := by
  cases leap <;> decide

lemma civilFromUnix_spec (t : Nat) :
    unixOfCivil (civilFromUnix t).1 (civilFromUnix t).2.1
        (civilFromUnix t).2.2.1 (civilFromUnix t).2.2.2.1
        (civilFromUnix t).2.2.2.2.1 (civilFromUnix t).2.2.2.2.2 = t ∧
    1970 ≤ (civilFromUnix t).1 ∧
    1 ≤ (civilFromUnix t).2.1 ∧ (civilFromUnix t).2.1 ≤ 12 ∧
    1 ≤ (civilFromUnix t).2.2.1 ∧
    (civilFromUnix t).2.2.1 ≤
      monthDays (isLeap (civilFromUnix t).1) (civilFromUnix t).2.1 ∧
    (civilFromUnix t).2.2.2.1 < 24 ∧
    (civilFromUnix t).2.2.2.2.1 < 60 ∧ (civilFromUnix t).2.2.2.2.2 < 60 := by
  have hyr := toYearAux_spec (t / 86400 + 1) 0 (t / 86400)
    (Nat.lt_succ_self _)
  simp only [civilFromUnix]
  set days := t / 86400 with hdays
  set rem := t % 86400 with hrem
  set yr := toYearAux (days + 1) 0 days with hyrdef
  set y := 1970 + yr.1 with hy
  have hdy : yr.2 < (if isLeap y then 366 else 365) := by
    have := hyr.2.1
    rwa [daysInYear] at this
  have hmo := toMonth_spec (isLeap y) yr.2 hdy
  set md := toMonthAux 12 (isLeap y) 1 yr.2 with hmddef
  have hremlt : rem < 86400 := Nat.mod_lt _ (by omega)
  have hsplit : 86400 * days + rem = t := Nat.div_add_mod t 86400
  refine ⟨?_, by omega, hmo.2.2.1, hmo.2.2.2, by omega, ?_, ?_, ?_, ?_⟩
  · rw [unixOfCivil, daysFromCivil]
    have hy0 : y - 1970 = yr.1 - 0 := by omega
    have hcum : cumMonthDays (isLeap y) md.1 + (md.2 + 1 - 1) = yr.2 := by
      have := hmo.1
      omega
    have hsum : sumYears 0 (yr.1 - 0) + yr.2 = days := hyr.2.2
    have hsec : 3600 * (rem / 3600) + 60 * (rem % 3600 / 60) + rem % 60 =
        rem := by
      have h1 : 3600 * (rem / 3600) + rem % 3600 = rem :=
        Nat.div_add_mod rem 3600
      have h2 : 60 * (rem % 3600 / 60) + rem % 3600 % 60 = rem % 3600 :=
        Nat.div_add_mod (rem % 3600) 60
      have h3 : rem % 3600 % 60 = rem % 60 :=
        Nat.mod_mod_of_dvd rem (by omega)
      omega
    rw [hy0]
    omega
  · have := hmo.1
    omega
  · omega
  · omega
  · omega

lemma noDigitHead_zee : noDigitHead ['Z'] = true := by decide

/-- Round trip: the canonical ISO UTC rendering of any `uint32` timestamp
is decoded back to that timestamp by `parseTimestamp` (it falls through the
two offset patterns at the literal `T` and is accepted by pattern 3). -/
theorem parse_format_id (t : Nat) (ht : t < 4294967296) :
    parseTimestampL (formatTimestampL t) = t := by
  obtain ⟨hu, hy, hm1, hm2, hd1, hd2, hh, hmi, hs⟩ := civilFromUnix_spec t
  rw [formatTimestampL]
  simp only [parseTimestampL, scan1_tee, scan2_tee,
    scanISO_render _ _ _ _ _ _ _ noDigitHead_zee]
  rw [Unixtime]
  have hvalid : validCivil ((civilFromUnix t).1 : Int)
      ((civilFromUnix t).2.1 : Int) ((civilFromUnix t).2.2.1 : Int)
      ((civilFromUnix t).2.2.2.1 : Int) ((civilFromUnix t).2.2.2.2.1 : Int)
      ((civilFromUnix t).2.2.2.2.2 : Int) = true := by
    simp only [validCivil, Bool.and_eq_true, decide_eq_true_eq,
      Int.toNat_natCast]
    refine ⟨⟨⟨⟨⟨⟨⟨⟨⟨⟨by omega, by omega⟩, by omega⟩, by omega⟩, ?_⟩,
      by omega⟩, by omega⟩, by omega⟩, by omega⟩, by omega⟩, by omega⟩
    exact_mod_cast hd2
  rw [if_pos hvalid]
  simp only [Int.toNat_natCast]
  rw [hu]
  exact Nat.mod_eq_of_lt ht

lemma space_ws : isWsC ' ' = true := by decide

lemma space_not_digit : (' ').isDigit = false := by decide

lemma readInt_cons_ws (c : Char) (l : List Char) (h : isWsC c = true) :
    readInt (c :: l) = readInt l := by
  rw [readInt, readInt]
  have : dropWs (c :: l) = dropWs l := by
    simp [dropWs, h]
  rw [this]

lemma scanTime_cons_ws (c : Char) (l : List Char) (h : isWsC c = true) :
    scanTime (c :: l) = scanTime l := by
  rw [scanTime, scanTime, readInt_cons_ws c l h]

lemma noDigitHead_nil : noDigitHead [] = true := rfl

/-- Pattern 1 accepts a space-separated date-time followed by ANY
non-digit byte in the `%c` slot and an `hh:mm`-shaped field pair. -/
lemma scan1_render1 (y m d h mi s th tm : Nat) (sg : Char)
    (hsg : sg.isDigit = false) :
    scan1 (renderDate y m d (' ' :: renderTime h mi s
        (sg :: (zpad 2 th ++ ':' :: zpad 2 tm)))) =
      some ((y : Int), (m : Int), (d : Int), (h : Int), (mi : Int),
        (s : Int), sg, (th : Int), (tm : Int)) := by
  rw [scan1, scanDate_render y m d _
    (by simp [noDigitHead_cons, space_not_digit])]
  simp only [Option.bind_eq_bind, Option.some_bind]
  rw [scanTime_cons_ws _ _ space_ws,
    scanTime_render h mi s _ (by simp [noDigitHead_cons, hsg])]
  simp only [Option.some_bind, readChar]
  rw [readInt_pad 2 th _ (by simp [noDigitHead_cons, colon_not_digit])]
  simp only [Option.some_bind, litc_cons]
  have : zpad 2 tm = zpad 2 tm ++ [] := by simp
  rw [this, readInt_pad 2 tm [] noDigitHead_nil]
  simp only [Option.some_bind]

/-- Pattern 1 rejects the hour-only-offset shape (the literal `:` finds
end of input), and pattern 2 accepts it. -/
lemma scan1_render2 (y m d h mi s th : Nat) (sg : Char)
    (hsg : sg.isDigit = false) :
    scan1 (renderDate y m d (' ' :: renderTime h mi s
        (sg :: zpad 2 th))) = none := by
  rw [scan1, scanDate_render y m d _
    (by simp [noDigitHead_cons, space_not_digit])]
  simp only [Option.bind_eq_bind, Option.some_bind]
  rw [scanTime_cons_ws _ _ space_ws,
    scanTime_render h mi s _ (by simp [noDigitHead_cons, hsg])]
  simp only [Option.some_bind, readChar]
  have : zpad 2 th = zpad 2 th ++ [] := by simp
  rw [this, readInt_pad 2 th [] noDigitHead_nil]
  simp only [Option.some_bind, litc, Option.none_bind]

lemma scan2_render2 (y m d h mi s th : Nat) (sg : Char)
    (hsg : sg.isDigit = false) :
    scan2 (renderDate y m d (' ' :: renderTime h mi s
        (sg :: zpad 2 th))) =
      some ((y : Int), (m : Int), (d : Int), (h : Int), (mi : Int),
        (s : Int), sg, (th : Int)) := by
  rw [scan2, scanDate_render y m d _
    (by simp [noDigitHead_cons, space_not_digit])]
  simp only [Option.bind_eq_bind, Option.some_bind]
  rw [scanTime_cons_ws _ _ space_ws,
    scanTime_render h mi s _ (by simp [noDigitHead_cons, hsg])]
  simp only [Option.some_bind, readChar]
  have : zpad 2 th = zpad 2 th ++ [] := by simp
  rw [this, readInt_pad 2 th [] noDigitHead_nil]
  simp only [Option.some_bind]

/-- Patterns 1 and 2 reject the plain space-separated form (the `%c` slot
finds end of input). -/
lemma scan1_render5 (y m d h mi s : Nat) :
    scan1 (renderDate y m d (' ' :: renderTime h mi s [])) = none := by
  rw [scan1, scanDate_render y m d _
    (by simp [noDigitHead_cons, space_not_digit])]
  simp only [Option.bind_eq_bind, Option.some_bind]
  rw [scanTime_cons_ws _ _ space_ws, scanTime_render h mi s [] noDigitHead_nil]
  simp only [Option.some_bind, readChar, Option.none_bind]

lemma scan2_render5 (y m d h mi s : Nat) :
    scan2 (renderDate y m d (' ' :: renderTime h mi s [])) = none := by
  rw [scan2, scanDate_render y m d _
    (by simp [noDigitHead_cons, space_not_digit])]
  simp only [Option.bind_eq_bind, Option.some_bind]
  rw [scanTime_cons_ws _ _ space_ws, scanTime_render h mi s [] noDigitHead_nil]
  simp only [Option.some_bind, readChar, Option.none_bind]

lemma scanISO_render5 (y m d h mi s : Nat) :
    scanISO (renderDate y m d (' ' :: renderTime h mi s [])) = none := by
  rw [scanISO, scanDate_render y m d _
    (by simp [noDigitHead_cons, space_not_digit])]
  simp only [Option.bind_eq_bind, Option.some_bind, litc]
  simp

lemma scan5_render5 (y m d h mi s : Nat) :
    scan5 (renderDate y m d (' ' :: renderTime h mi s [])) =
      some ((y : Int), (m : Int), (d : Int), (h : Int), (mi : Int),
        (s : Int)) := by
  rw [scan5, scanDate_render y m d _
    (by simp [noDigitHead_cons, space_not_digit])]
  simp only [Option.bind_eq_bind, Option.some_bind]
  rw [scanTime_cons_ws _ _ space_ws, scanTime_render h mi s [] noDigitHead_nil]
  simp only [Option.some_bind]

lemma sub32_lt (u : Nat) (off : Int) : sub32 u off < 4294967296 := by
  rw [sub32]
  have h1 := Int.emod_nonneg ((u : Int) - off)
    (by norm_num : (4294967296 : Int) ≠ 0)
  have h2 := Int.emod_lt_of_pos ((u : Int) - off)
    (by norm_num : (0 : Int) < 4294967296)
  rcases Int.eq_ofNat_of_zero_le h1 with ⟨k, hk⟩
  rw [hk] at h2 ⊢
  simp only [Int.toNat_natCast]
  exact_mod_cast h2

lemma Unixtime_lt (y m d h mi s : Int) : Unixtime y m d h mi s < 4294967296 := by
  rw [Unixtime]
  split
  · exact Nat.mod_lt _ (by norm_num)
  · norm_num

/-- Every `parseTimestamp` result fits in `uint32` (the source returns a
`uint32_t`). -/
lemma parseTimestampL_lt (cs : List Char) :
    parseTimestampL cs < 4294967296 := by
  rw [parseTimestampL]
  rcases h1 : scan1 cs with _ | ⟨y, m, d, h, mi, s, sg, th, tm⟩
  · rcases h2 : scan2 cs with _ | ⟨y, m, d, h, mi, s, sg, th⟩
    · rcases h3 : scanISO cs with _ | ⟨y, m, d, h, mi, s⟩
      · rcases h5 : scan5 cs with _ | ⟨y, m, d, h, mi, s⟩
        · norm_num
        · exact Unixtime_lt _ _ _ _ _ _
      · exact Unixtime_lt _ _ _ _ _ _
    · exact sub32_lt _ _
  · exact sub32_lt _ _

/-- The five accepted textual variants of spec §4.1, rendered with
zero-padded fields: (1) `YYYY-MM-DD hh:mm:ss±HH:MM`,
(2) `YYYY-MM-DD hh:mm:ss±HH`, (3) `YYYY-MM-DDThh:mm:ssZ`,
(4) `YYYY-MM-DDThh:mm:ss`, (5) `YYYY-MM-DD hh:mm:ss`. -/
inductive AcceptedForm : List Char → Prop where
  | hmOffset (y m d h mi s th tm : Nat) (sg : Char)
      (hsg : sg = '+' ∨ sg = '-') :
      AcceptedForm (renderDate y m d (' ' :: renderTime h mi s
        (sg :: (zpad 2 th ++ ':' :: zpad 2 tm))))
  | hOffset (y m d h mi s th : Nat) (sg : Char)
      (hsg : sg = '+' ∨ sg = '-') :
      AcceptedForm (renderDate y m d (' ' :: renderTime h mi s
        (sg :: zpad 2 th)))
  | isoZ (y m d h mi s : Nat) :
      AcceptedForm (renderDate y m d ('T' :: renderTime h mi s ['Z']))
  | isoNoTz (y m d h mi s : Nat) :
      AcceptedForm (renderDate y m d ('T' :: renderTime h mi s []))
  | spaceNoTz (y m d h mi s : Nat) :
      AcceptedForm (renderDate y m d (' ' :: renderTime h mi s []))

/-- C8 (amended): `parseTimestamp` tries the five `sscanf` patterns in the
stated priority order and the first match wins; unmatched input yields 0
("none").  For the two space-separated offset patterns the `%c` "sign"
slot accepts ANY non-digit byte (anything other than `'-'` is treated as
`'+'`), and the parsed offset is subtracted from the naive fields.  For
the `T`-separated ISO shapes any trailing text after the seconds —
including an explicit signed offset — is ignored and the fields are taken
as naive UTC. -/
theorem c8_parse_five_patterns :
    (∀ (y m d h mi s th tm : Nat) (sg : Char), sg.isDigit = false →
      parseTimestampL (renderDate y m d (' ' :: renderTime h mi s
          (sg :: (zpad 2 th ++ ':' :: zpad 2 tm)))) =
        sub32 (Unixtime y m d h mi s)
          (tzApply sg ((th : Int) * 3600 + (tm : Int) * 60))) ∧
    (∀ (y m d h mi s th : Nat) (sg : Char), sg.isDigit = false →
      parseTimestampL (renderDate y m d (' ' :: renderTime h mi s
          (sg :: zpad 2 th))) =
        sub32 (Unixtime y m d h mi s) (tzApply sg ((th : Int) * 3600))) ∧
    (∀ (y m d h mi s : Nat) (tail : List Char), noDigitHead tail = true →
      parseTimestampL (renderDate y m d ('T' :: renderTime h mi s tail)) =
        Unixtime y m d h mi s) ∧
    (∀ (y m d h mi s : Nat),
      parseTimestampL (renderDate y m d (' ' :: renderTime h mi s [])) =
        Unixtime y m d h mi s) ∧
    (∀ cs, scan1 cs = none → scan2 cs = none → scanISO cs = none →
      scan5 cs = none → parseTimestampL cs = 0) := by
  refine ⟨?_, ?_, ?_, ?_, ?_⟩
  · intro y m d h mi s th tm sg hsg
    rw [parseTimestampL, scan1_render1 y m d h mi s th tm sg hsg]
  · intro y m d h mi s th sg hsg
    rw [parseTimestampL, scan1_render2 y m d h mi s th sg hsg,
      scan2_render2 y m d h mi s th sg hsg]
  · intro y m d h mi s tail htail
    rw [parseTimestampL, scan1_tee, scan2_tee,
      scanISO_render y m d h mi s tail htail]
  · intro y m d h mi s
    rw [parseTimestampL, scan1_render5, scan2_render5, scanISO_render5,
      scan5_render5]
  · intro cs h1 h2 h3 h5
    rw [parseTimestampL, h1, h2, h3, h5]

/-- C8 witness: concrete instances of the amended statement — `'*'` is
accepted in the sign slot with the offset applied as positive, a trailing
offset after a `T`-separated time is ignored, and an input matching no
pattern parses to 0. -/
theorem c8_parse_five_patterns_witness :
    parseTimestampL (renderDate 2023 10 15 (' ' :: renderTime 14 30 25
        ('*' :: (zpad 2 10 ++ ':' :: zpad 2 30)))) =
      sub32 (Unixtime 2023 10 15 14 30 25)
        (tzApply '*' ((10 : Int) * 3600 + (30 : Int) * 60)) ∧
    parseTimestampL (renderDate 2023 10 15
        ('T' :: renderTime 14 30 25 ['Z'])) =
      Unixtime 2023 10 15 14 30 25 ∧
    parseTimestampL ('x' :: []) = 0 :=
  ⟨by
      have h := c8_parse_five_patterns.1 2023 10 15 14 30 25 10 30 '*'
        (by decide)
      exact_mod_cast h,
   by
      have h := c8_parse_five_patterns.2.2.1 2023 10 15 14 30 25 ['Z']
        noDigitHead_zee
      exact_mod_cast h,
   c8_parse_five_patterns.2.2.2.2 ['x'] rfl rfl rfl rfl⟩

set_option maxRecDepth 100000 in
/-- C8 counterexample: the claim demands that EVERY accepted input
carrying an explicit signed timezone offset has the offset subtracted.
`"2023-10-15T14:30:25+10:30"` is accepted (by pattern 3, which stops
counting at the seconds field) but parses identically to the naive
`"2023-10-15T14:30:25"`, not 37800 seconds earlier. -/
theorem c8_offset_ignored_counterexample :
    parseTimestamp "2023-10-15T14:30:25+10:30" =
      parseTimestamp "2023-10-15T14:30:25" ∧
    parseTimestamp "2023-10-15T14:30:25" ≠
      parseTimestamp "2023-10-15T14:30:25" - 37800 ∧
    0 < parseTimestamp "2023-10-15T14:30:25+10:30" := by
  refine ⟨by decide, by decide, by decide⟩

/-- C9: for input text in any of the five accepted forms, formatting the
parsed timestamp yields text that parses back to the identical absolute
instant.  (The proof factors through `parse_format_id`: every parse
result is a `uint32`, and the canonical rendering of any `uint32` instant
re-parses to itself.) -/
theorem c9_codec_roundtrip (x : String) (_hx : AcceptedForm x.data) :
    parseTimestamp (formatTimestamp (parseTimestamp x)) = parseTimestamp x :=
  parse_format_id (parseTimestampL x.data) (parseTimestampL_lt x.data)

/-- C9 witness: the round trip at a concrete accepted input of form 3. -/
theorem c9_codec_roundtrip_witness :
    parseTimestamp (formatTimestamp (parseTimestamp
        (String.mk (renderDate 2023 10 15
          ('T' :: renderTime 14 30 25 ['Z']))))) =
      parseTimestamp (String.mk (renderDate 2023 10 15
        ('T' :: renderTime 14 30 25 ['Z']))) :=
  c9_codec_roundtrip _ (AcceptedForm.isoZ 2023 10 15 14 30 25)

/-! ## Concrete environments for witnesses and counterexamples -/

/-- A minimal single-script environment used by several concrete runs. -/
def baseEnv : Env := {
  interval := 60, bulkSend := 1, bufferLimit := 100000,
  uploadStartDate := 0, utcNow := 1000,
  yield := fun _ => false,
  log := { firstKey := 0, lastKey := 180, hoursAt := fun t => (t : Int) },
  scripts := [{ name := "A", unitsEnum := 0, precision := 1,
                run := fun _ _ => some 7 }],
  unitsCount := 1, unitActive := fun _ => true,
  unitstr := fun _ => "Watts", device := "dev",
  render := fun _ _ => "7.0",
  extractTs := fun _ => none }

/-- An idle state with no transport handle and empty buffer. -/
def stIdle : St := {
  phase := Phase.checkQuery, lastSent := 0, lastPost := 0,
  oldRecord := none, newRecord := none, reqData := [],
  request := none, statusMessage := none, stop := false }

/-! ## C1: resume watermark -/

/-- C1 counterexample: with `uploadStartDate = 10`, `firstKey = 0`,
`interval = 60` and no remote watermark, the resolve step floors
`max(parsedWatermark, startDate, firstKey) = 10` down to 0, strictly below
`max(configuredStartDate, earliestLogKey) = 10` — the claimed lower bound
does not survive the interval alignment of line 313. -/
theorem c1_floor_below_max_counterexample :
    (handle_checkQuery_s { baseEnv with uploadStartDate := 10 }
        { stIdle with request := some ⟨4, 200, ""⟩ }).2.lastSent <
      max ({ baseEnv with uploadStartDate := 10 } : Env).uploadStartDate
        ({ baseEnv with uploadStartDate := 10 } : Env).log.firstKey ∧
    (handle_checkQuery_s { baseEnv with uploadStartDate := 10 }
        { stIdle with request := some ⟨4, 200, ""⟩ }).2.phase =
      Phase.write := by
  refine ⟨by decide, by decide⟩

/-- C1 (amended): on every resolve completion the watermark is a multiple
of the interval, and is never lower than `max(configuredStartDate,
earliestLogKey)` floored to an interval multiple (the source first takes
the max of the parsed watermark, the start date and the first log key —
lines 311-312 — and only then interval-aligns — line 313 — so up to
`interval - 1` seconds below the raw max can be lost). -/
theorem c1_resume_watermark_aligned (env : Env) (st : St) (req : Req)
    (hreq : st.request = some req) (hready : req.readyState = 4)
    (hcode : req.httpCode = 200) (_hint : 0 < env.interval) :
    (handle_checkQuery_s env st).2.phase = Phase.write ∧
    (handle_checkQuery_s env st).2.lastSent % env.interval = 0 ∧
    max env.uploadStartDate env.log.firstKey -
        max env.uploadStartDate env.log.firstKey % env.interval ≤
      (handle_checkQuery_s env st).2.lastSent := by
  rw [handle_checkQuery_s, hreq]
  simp only [hready, hcode, ne_eq, not_true_eq_false, if_false,
    decide_not, not_false_eq_true, ite_true, ite_false]
  set ls0 :=
    match env.extractTs req.responseText with
    | some tsStr =>
        let t := parseTimestamp tsStr
        if 0 < t then t else st.lastSent
    | none => st.lastSent with hls0
  set m := max env.uploadStartDate env.log.firstKey with hm
  set ls2 := max (max ls0 env.uploadStartDate) env.log.firstKey with hls2
  have hmle : m ≤ ls2 := by
    rw [hm, hls2]
    exact max_le_max (le_max_right _ _) (le_rfl)
  have hd1 := Nat.div_add_mod m env.interval
  have hd2 := Nat.div_add_mod ls2 env.interval
  have hdiv : m / env.interval ≤ ls2 / env.interval :=
    Nat.div_le_div_right hmle
  have hmul := Nat.mul_le_mul_left env.interval hdiv
  have hfloor : ls2 - ls2 % env.interval =
      env.interval * (ls2 / env.interval) := by omega
  refine ⟨by trivial, ?_, ?_⟩
  · simp only [hfloor]
    exact Nat.mul_mod_right _ _
  · omega

/-- C1 witness: a completed 200 response with a parsed remote watermark. -/
theorem c1_resume_watermark_aligned_witness :
    (handle_checkQuery_s
        { baseEnv with extractTs := fun _ => some "2023-10-15T14:30:25Z" }
        { stIdle with request := some ⟨4, 200, "[]"⟩ }).2.phase =
      Phase.write ∧
    (handle_checkQuery_s
        { baseEnv with extractTs := fun _ => some "2023-10-15T14:30:25Z" }
        { stIdle with request := some ⟨4, 200, "[]"⟩ }).2.lastSent % 60 = 0 ∧
    max 0 0 - max 0 0 % 60 ≤
      (handle_checkQuery_s
        { baseEnv with extractTs := fun _ => some "2023-10-15T14:30:25Z" }
        { stIdle with request := some ⟨4, 200, "[]"⟩ }).2.lastSent :=
  c1_resume_watermark_aligned _ _ ⟨4, 200, "[]"⟩ rfl rfl rfl (by decide)

/-! ## C7: settle-step waiting discipline -/

/-- C7 counterexample: in the write settle step a present but incomplete
request (`readyState = 3`) is NOT waited on — the request is deleted and
the phase reset to write, with a backoff delay (the source comment on
line 521 says exactly that). -/
theorem c7_write_settle_discards_incomplete_counterexample :
    (handle_checkWrite_s baseEnv
        { stIdle with phase := Phase.checkWrite,
                       request := some ⟨3, -5, ""⟩ }).1 =
      CWExit.transportFail ∧
    (handle_checkWrite_s baseEnv
        { stIdle with phase := Phase.checkWrite,
                       request := some ⟨3, -5, ""⟩ }).2.request = none ∧
    (handle_checkWrite_s baseEnv
        { stIdle with phase := Phase.checkWrite,
                       request := some ⟨3, -5, ""⟩ }).2.phase =
      Phase.write := by
  refine ⟨by decide, by decide, by decide⟩

/-- C7 (amended): a missing transport handle makes BOTH settle steps wait
(return the retry delay, keep state untouched); an incomplete request
makes only the query settle step wait, while the write settle step treats
it as a transport failure — the handle is discarded and the phase returns
to write. -/
theorem c7_settle_wait_discipline (env : Env) (st : St) :
    (st.request = none →
      handle_checkQuery_s env st = (CQExit.wait, st) ∧
      handle_checkWrite_s env st = (CWExit.wait, st)) ∧
    (∀ req, st.request = some req → req.readyState ≠ 4 →
      handle_checkQuery_s env st = (CQExit.wait, st) ∧
      handle_checkWrite_s env st =
        (CWExit.transportFail,
          { st with request := none, phase := Phase.write })) := by
  constructor
  · intro h
    constructor
    · rw [handle_checkQuery_s, h]
    · rw [handle_checkWrite_s, h]
  · intro req h hr
    constructor
    · rw [handle_checkQuery_s, h]
      simp [hr]
    · rw [handle_checkWrite_s, h]
      simp [hr]

/-- C7 witness: both halves at concrete states. -/
theorem c7_settle_wait_discipline_witness :
    handle_checkQuery_s baseEnv stIdle = (CQExit.wait, stIdle) ∧
    handle_checkWrite_s baseEnv
        { stIdle with request := some ⟨2, 201, ""⟩ } =
      (CWExit.transportFail,
        { { stIdle with request := some ⟨2, 201, ""⟩ } with
            request := none, phase := Phase.write }) :=
  ⟨((c7_settle_wait_discipline baseEnv stIdle).1 rfl).1,
   ((c7_settle_wait_discipline baseEnv
       { stIdle with request := some ⟨2, 201, ""⟩ }).2 ⟨2, 201, ""⟩ rfl
       (by decide)).2⟩

/-! ## C10: zero-elapsed pair -/

/-- C10: when the pair about to be consumed has zero elapsed hours, the
loop iteration emits no rows, leaves the buffer untouched, does not
update `_lastPost`, and defers (return 1 when another interval of data is
already known, else a one-second UTC defer). -/
theorem c10_zero_elapsed_defers (env : Env) (fuel iter : Nat)
    (old new : LogRec) (buf : List Chunk) (lp : Nat)
    (hbuf : avail env buf < env.bufferLimit)
    (hnk : new.UNIXtime < env.log.lastKey)
    (hyield : env.yield iter = false)
    (hstall : env.log.hoursAt (new.UNIXtime + env.interval) = new.logHours) :
    ((writeLoop env (fuel + 1) iter old new buf lp).exit = LExit.stallRetry ∨
     (writeLoop env (fuel + 1) iter old new buf lp).exit = LExit.stallDefer) ∧
    (writeLoop env (fuel + 1) iter old new buf lp).buf = buf ∧
    (writeLoop env (fuel + 1) iter old new buf lp).lastPost = lp := by
  rw [writeLoop]
  rw [if_pos ⟨hbuf, hnk⟩]
  simp only [hyield, Bool.false_eq_true, if_false]
  have hz : (readKey env.log (new.UNIXtime + env.interval)).logHours -
      new.logHours = 0 := by
    rw [readKey, hstall]
    ring
  rw [if_pos hz]
  by_cases hmore : (readKey env.log (new.UNIXtime + env.interval)).UNIXtime +
      env.interval ≤ env.log.lastKey
  · rw [if_pos hmore]
    exact ⟨Or.inl rfl, rfl, rfl⟩
  · rw [if_neg hmore]
    exact ⟨Or.inr rfl, rfl, rfl⟩

/-- C10 witness: a stalled log (constant `logHours`) at a concrete state. -/
theorem c10_zero_elapsed_defers_witness :
    ((writeLoop { baseEnv with log := ⟨0, 180, fun _ => 5⟩ } 3 0
        ⟨0, 5⟩ ⟨60, 5⟩ [Chunk.header "h"] 0).exit = LExit.stallRetry ∨
     (writeLoop { baseEnv with log := ⟨0, 180, fun _ => 5⟩ } 3 0
        ⟨0, 5⟩ ⟨60, 5⟩ [Chunk.header "h"] 0).exit = LExit.stallDefer) ∧
    (writeLoop { baseEnv with log := ⟨0, 180, fun _ => 5⟩ } 3 0
        ⟨0, 5⟩ ⟨60, 5⟩ [Chunk.header "h"] 0).buf = [Chunk.header "h"] ∧
    (writeLoop { baseEnv with log := ⟨0, 180, fun _ => 5⟩ } 3 0
        ⟨0, 5⟩ ⟨60, 5⟩ [Chunk.header "h"] 0).lastPost = 0 :=
  c10_zero_elapsed_defers _ 2 0 ⟨0, 5⟩ ⟨60, 5⟩ [Chunk.header "h"] 0
    (by decide) (by decide) rfl rfl

/-! ## Buffer observation lemmas -/

lemma rowTs_append (a b : List Chunk) : rowTs (a ++ b) = rowTs a ++ rowTs b := by
  simp [rowTs]

lemma rowTs_cons_rowStart (t : Nat) (d s : String) (l : List Chunk) :
    rowTs (Chunk.rowStart t d s :: l) = t :: rowTs l := by
  simp [rowTs, List.filterMap_cons]

lemma rowTs_nullFill (env : Env) (i : Nat) : ∀ n, rowTs (nullFill env i n) = [] := by
  intro n
  induction n generalizing i with
  | zero => rfl
  | succ n ihn =>
    rw [nullFill, rowTs_append, ihn]
    by_cases h : env.unitActive i = true <;> simp [h, rowTs]

lemma rowTs_singleton_rowStart (t : Nat) (d s : String) :
    rowTs [Chunk.rowStart t d s] = [t] := by
  simp [rowTs, List.filterMap_cons]

lemma rowTs_emitScripts (env : Env) (old new : LogRec) (t : Nat) :
    ∀ (scripts : List Script) (sensor : String) (idx : Nat),
    ∀ u ∈ rowTs (emitScripts env old new t sensor idx scripts).1, u = t := by
  intro scripts
  induction scripts with
  | nil => intro sensor idx u hu; simp [emitScripts, rowTs] at hu
  | cons sc rest ihs =>
    intro sensor idx u hu
    rw [emitScripts] at hu
    rcases hrun : sc.run old new with _ | v
    · rw [hrun] at hu
      exact ihs sensor idx u hu
    · rw [hrun] at hu
      by_cases hsens : sensor = sc.name
      · simp only [if_pos hsens, List.nil_append, rowTs_append,
          List.mem_append, rowTs_nullFill, List.not_mem_nil, false_or,
          or_false] at hu
        rcases hu with hu | hu
        · revert hu
          split <;> intro hu <;> simp [rowTs, List.filterMap_cons] at hu
        · exact ihs _ _ u hu
      · simp only [if_neg hsens, List.append_assoc, List.cons_append,
          List.nil_append, rowTs_append, rowTs_cons_rowStart,
          List.mem_cons, List.mem_append, rowTs_nullFill,
          rowTs_singleton_rowStart, List.not_mem_nil, false_or,
          or_false, List.mem_singleton] at hu
        rcases hu with hu | hu | hu
        · exact hu
        · revert hu
          split <;> intro hu <;> simp [rowTs, List.filterMap_cons] at hu
        · exact ihs _ _ u hu

lemma rowTs_assemblePair (env : Env) (old new : LogRec) :
    ∀ u ∈ rowTs (assemblePair env old new), u = old.UNIXtime := by
  intro u hu
  rcases hsc : env.scripts with _ | ⟨s0, rest⟩
  · simp only [assemblePair, hsc, rowTs, List.filterMap_nil] at hu
    exact absurd hu (List.not_mem_nil u)
  · simp only [assemblePair, hsc, List.cons_append, rowTs_cons_rowStart] at hu
    rcases List.mem_cons.mp hu with h | h
    · exact h
    · rw [rowTs_append] at h
      rcases List.mem_append.mp h with h | h
      · have := rowTs_emitScripts env old new old.UNIXtime env.scripts
          s0.name 0 u
        rw [hsc] at this
        exact this h
      · rw [rowTs_nullFill] at h
        simp at h

lemma rowTs_assemblePair_ne (env : Env) (old new : LogRec)
    (hs : env.scripts ≠ []) : rowTs (assemblePair env old new) ≠ [] := by
  rcases hsc : env.scripts with _ | ⟨s0, rest⟩
  · exact absurd hsc hs
  · simp only [assemblePair, hsc, List.cons_append, rowTs_cons_rowStart]
    simp

lemma getLast?_all_eq (l : List Nat) (t : Nat) (hne : l ≠ [])
    (hall : ∀ u ∈ l, u = t) : l.getLast? = some t := by
  induction l with
  | nil => exact absurd rfl hne
  | cons a tail ih =>
    cases tail with
    | nil =>
      simp only [List.getLast?_singleton]
      rw [hall a (by simp)]
    | cons b tail2 =>
      rw [List.getLast?_cons_cons]
      exact ih (by simp) (fun u hu => hall u (by simp [hu]))

lemma lastRowTs_append_assemble (env : Env) (old new : LogRec)
    (hs : env.scripts ≠ []) (buf : List Chunk) :
    lastRowTs (buf ++ assemblePair env old new) = some old.UNIXtime := by
  rw [lastRowTs, rowTs_append, List.getLast?_append]
  have h2 : (rowTs (assemblePair env old new)).getLast? =
      some old.UNIXtime :=
    getLast?_all_eq _ _ (rowTs_assemblePair_ne env old new hs)
      (rowTs_assemblePair env old new)
  rw [h2]
  rfl

lemma lastRowTs_newline (buf : List Chunk) :
    lastRowTs (buf ++ [Chunk.newline]) = lastRowTs buf := by
  rw [lastRowTs, lastRowTs, rowTs_append]
  simp [rowTs]

lemma lastRowTs_header_append (buf : List Chunk) (s : String) :
    lastRowTs (buf ++ [Chunk.header s]) = lastRowTs buf := by
  rw [lastRowTs, lastRowTs, rowTs_append]
  simp [rowTs]

/-! ## Loop invariants -/

/-- `_lastPost` tracks the newest row in the buffer: if on entry the
buffer's newest row (when any) is `lastPost`, the same holds on every
exit of the pair loop. -/
lemma writeLoop_lastPost_inv (env : Env) (hs : env.scripts ≠ []) :
    ∀ (fuel iter : Nat) (old new : LogRec) (buf : List Chunk) (lp : Nat),
    (∀ u, lastRowTs buf = some u → lp = u) →
    ∀ u, lastRowTs (writeLoop env fuel iter old new buf lp).buf = some u →
      (writeLoop env fuel iter old new buf lp).lastPost = u := by
  intro fuel
  induction fuel with
  | zero => intro iter old new buf lp hinv u hu; exact hinv u hu
  | succ f ihf =>
    intro iter old new buf lp hinv u hu
    rw [writeLoop] at hu ⊢
    by_cases hcond : avail env buf < env.bufferLimit ∧
        new.UNIXtime < env.log.lastKey
    · rw [if_pos hcond] at hu ⊢
      by_cases hy : env.yield iter = true
      · rw [if_pos hy] at hu ⊢
        exact hinv u hu
      · rw [if_neg hy] at hu ⊢
        by_cases hz : (readKey env.log (new.UNIXtime + env.interval)).logHours
            - new.logHours = 0
        · rw [if_pos hz] at hu ⊢
          by_cases hk : (readKey env.log
              (new.UNIXtime + env.interval)).UNIXtime + env.interval ≤
              env.log.lastKey
          · rw [if_pos hk] at hu ⊢
            exact hinv u hu
          · rw [if_neg hk] at hu ⊢
            exact hinv u hu
        · rw [if_neg hz] at hu ⊢
          refine ihf (iter + 1) new _ _ _ ?_ u hu
          intro w hw
          rw [lastRowTs_append_assemble env new _ hs buf] at hw
          exact (Option.some.injEq _ _).mp hw.symm |>.symm
    · rw [if_neg hcond] at hu ⊢
      exact hinv u hu

/-- Every data row the loop ever appends carries a record key strictly
below the log's last key (the loop condition tests `newRecord->UNIXtime <
Current_log.lastKey()` before the swap, and the appended rows' timestamp
is the swapped old record, i.e. the previous new record). -/
lemma writeLoop_rowTs_lt (env : Env) :
    ∀ (fuel iter : Nat) (old new : LogRec) (buf : List Chunk) (lp : Nat),
    (∀ u ∈ rowTs buf, u < env.log.lastKey) →
    ∀ u ∈ rowTs (writeLoop env fuel iter old new buf lp).buf,
      u < env.log.lastKey := by
  intro fuel
  induction fuel with
  | zero => intro iter old new buf lp hinv u hu; exact hinv u hu
  | succ f ihf =>
    intro iter old new buf lp hinv u hu
    rw [writeLoop] at hu
    by_cases hcond : avail env buf < env.bufferLimit ∧
        new.UNIXtime < env.log.lastKey
    · rw [if_pos hcond] at hu
      by_cases hy : env.yield iter = true
      · rw [if_pos hy] at hu
        exact hinv u hu
      · rw [if_neg hy] at hu
        by_cases hz : (readKey env.log (new.UNIXtime + env.interval)).logHours
            - new.logHours = 0
        · rw [if_pos hz] at hu
          by_cases hk : (readKey env.log
              (new.UNIXtime + env.interval)).UNIXtime + env.interval ≤
              env.log.lastKey
          · rw [if_pos hk] at hu
            exact hinv u hu
          · rw [if_neg hk] at hu
            exact hinv u hu
        · rw [if_neg hz] at hu
          refine ihf (iter + 1) new _ _ _ ?_ u hu
          intro w hw
          rw [rowTs_append] at hw
          rcases List.mem_append.mp hw with h | h
          · exact hinv w h
          · rw [rowTs_assemblePair env new _ w h]
            exact hcond.2
    · rw [if_neg hcond] at hu
      exact hinv u hu

/-- The loop's exit kind, record cursors and buffer do not depend on the
incoming `_lastPost` value (the member is only written inside the loop,
never read). -/
lemma writeLoop_lp_irrel (env : Env) :
    ∀ (fuel iter : Nat) (old new : LogRec) (buf : List Chunk) (lp lp' : Nat),
    (writeLoop env fuel iter old new buf lp).exit =
        (writeLoop env fuel iter old new buf lp').exit ∧
    (writeLoop env fuel iter old new buf lp).old =
        (writeLoop env fuel iter old new buf lp').old ∧
    (writeLoop env fuel iter old new buf lp).new =
        (writeLoop env fuel iter old new buf lp').new ∧
    (writeLoop env fuel iter old new buf lp).buf =
        (writeLoop env fuel iter old new buf lp').buf := by
  intro fuel
  induction fuel with
  | zero => intro iter old new buf lp lp'; exact ⟨rfl, rfl, rfl, rfl⟩
  | succ f ihf =>
    intro iter old new buf lp lp'
    rw [writeLoop, writeLoop]
    by_cases hcond : avail env buf < env.bufferLimit ∧
        new.UNIXtime < env.log.lastKey
    · rw [if_pos hcond, if_pos hcond]
      by_cases hy : env.yield iter = true
      · rw [if_pos hy, if_pos hy]
        exact ⟨rfl, rfl, rfl, rfl⟩
      · rw [if_neg hy, if_neg hy]
        by_cases hz : (readKey env.log (new.UNIXtime + env.interval)).logHours
            - new.logHours = 0
        · rw [if_pos hz, if_pos hz]
          by_cases hk : (readKey env.log
              (new.UNIXtime + env.interval)).UNIXtime + env.interval ≤
              env.log.lastKey
          · rw [if_pos hk, if_pos hk]
            exact ⟨rfl, rfl, rfl, rfl⟩
          · rw [if_neg hk, if_neg hk]
            exact ⟨rfl, rfl, rfl, rfl⟩
        · rw [if_neg hz, if_neg hz]
          exact ⟨rfl, rfl, rfl, rfl⟩
    · rw [if_neg hcond, if_neg hcond]
      exact ⟨rfl, rfl, rfl, rfl⟩

/-- Unfolding of a POSTing `handle_write_s` invocation: the loop finished
normally, the payload is the loop buffer plus the final newline, and the
cursors are freed, the buffer handed to the transport, `_lastPost` taken
from the loop. -/
lemma handle_write_s_posted (env : Env) (st : St) (payload : List Chunk)
    (st1 : St) (hw : handle_write_s env st = (WExit.posted payload, st1)) :
    (writeLoopRun env st).exit = LExit.done ∧
    payload = (writeLoopRun env st).buf ++ [Chunk.newline] ∧
    st1 = { st with oldRecord := none, newRecord := none, reqData := [],
                    lastPost := (writeLoopRun env st).lastPost,
                    phase := Phase.checkWrite } := by
  rw [handle_write_s] at hw
  by_cases hstop : st.stop = true
  · rw [if_pos hstop] at hw
    simp at hw
  · rw [if_neg hstop] at hw
    by_cases hth : env.log.lastKey <
        st.lastSent + env.interval + env.interval * env.bulkSend
    · rw [if_pos hth] at hw
      simp at hw
    · rw [if_neg hth] at hw
      rw [writeFinish] at hw
      split at hw
      · simp at hw
      · simp at hw
      · simp at hw
      · simp at hw
      · rename_i he
        split at hw
        · simp at hw
        · rw [Prod.mk.injEq] at hw
          refine ⟨he, ?_, hw.2.symm⟩
          have := hw.1
          rw [WExit.posted.injEq] at this
          exact this.symm

/-- `handle_write_s` reads only `_stop`, `_lastSent`, the two record
cursors and the buffer: its chosen path and payload agree on any two
states agreeing on those fields (`_lastPost` is write-only here). -/
lemma handle_write_s_exit_congr (env : Env) (s s' : St)
    (h1 : s.stop = s'.stop) (h2 : s.lastSent = s'.lastSent)
    (h3 : s.oldRecord = s'.oldRecord) (h4 : s.newRecord = s'.newRecord)
    (h5 : s.reqData = s'.reqData) :
    (handle_write_s env s).1 = (handle_write_s env s').1 := by
  rw [handle_write_s, handle_write_s, h1, h2]
  by_cases hstop : s'.stop = true
  · rw [if_pos hstop, if_pos hstop]
  · rw [if_neg hstop, if_neg hstop]
    by_cases hth : env.log.lastKey <
        s'.lastSent + env.interval + env.interval * env.bulkSend
    · rw [if_pos hth, if_pos hth]
    · rw [if_neg hth, if_neg hth]
      have hrecs : writeRecsInit env s = writeRecsInit env s' := by
        rw [writeRecsInit, writeRecsInit, h2, h3, h4]
      have hbuf : writeBufInit env s = writeBufInit env s' := by
        rw [writeBufInit, writeBufInit, h5]
      rw [writeLoopRun, writeLoopRun, hrecs, hbuf]
      obtain ⟨he, -, -, hb⟩ := writeLoop_lp_irrel env (env.log.lastKey + 1) 0
        (writeRecsInit env s').1 (writeRecsInit env s').2
        (writeBufInit env s') s.lastPost s'.lastPost
      rcases hE : (writeLoop env (env.log.lastKey + 1) 0
          (writeRecsInit env s').1 (writeRecsInit env s').2
          (writeBufInit env s') s'.lastPost).exit with _ | _ | _ | _ | _
      all_goals
        have hE1 := he.trans hE
        rw [writeFinish, writeFinish, hE, hE1]
      rw [hb]
      by_cases hav : avail env ((writeLoop env (env.log.lastKey + 1) 0
          (writeRecsInit env s').1 (writeRecsInit env s').2
          (writeBufInit env s') s'.lastPost).buf ++ [Chunk.newline]) ≤ 1
      · rw [if_pos hav, if_pos hav]
      · rw [if_neg hav, if_neg hav]

/-- C3: after a submit whose settle fails (request never completed, or any
completed response other than 201), `lastSent` is unchanged and the next
write invocation rebuilds the identical batch: the cursors are
re-initialised from `lastSent + interval` (the pair loop re-reads the
same starting pair), so the exact same payload is posted again. -/
theorem c3_failed_submit_idempotent_resend (env : Env) (st : St)
    (payload : List Chunk) (st1 : St) (req : Req)
    (hold : st.oldRecord = none) (hnew : st.newRecord = none)
    (hbuf : st.reqData = [])
    (hw : handle_write_s env st = (WExit.posted payload, st1))
    (hfail : req.readyState ≠ 4 ∨ req.httpCode ≠ 201) :
    (handle_checkWrite_s env { st1 with request := some req }).2.lastSent =
      st.lastSent ∧
    (handle_checkWrite_s env { st1 with request := some req }).2.phase =
      Phase.write ∧
    (handle_write_s env
        (handle_checkWrite_s env { st1 with request := some req }).2).1 =
      WExit.posted payload := by
  obtain ⟨he, hp, hst1⟩ := handle_write_s_posted env st payload st1 hw
  have hcw : ∃ msg, handle_checkWrite_s env { st1 with request := some req } =
      ((if req.readyState ≠ 4 then CWExit.transportFail else CWExit.httpFail),
        { st1 with request := none, phase := Phase.write,
                    statusMessage := msg }) := by
    by_cases hr : req.readyState = 4
    · have hcode : req.httpCode ≠ 201 := by
        rcases hfail with h | h
        · exact absurd hr h
        · exact h
      refine ⟨some (postFailMsg req.httpCode req.responseText), ?_⟩
      simp only [handle_checkWrite_s]
      simp [hr, hcode]
    · refine ⟨st1.statusMessage, ?_⟩
      simp only [handle_checkWrite_s]
      simp [hr]
  obtain ⟨msg, hcw⟩ := hcw
  subst hst1
  refine ⟨by rw [hcw], by rw [hcw], ?_⟩
  exact (handle_write_s_exit_congr env _ st (by rw [hcw]) (by rw [hcw])
    (by rw [hcw, hold]) (by rw [hcw, hnew]) (by rw [hcw, hbuf])).trans
    (congrArg Prod.fst hw)

/-- Shared concrete write scenario: interval 60, bulkSend 2, log keys up
to 180 — the write step posts rows 60 and 120 (the spec's end-to-end
scenario). -/
def envW3 : Env := { baseEnv with bulkSend := 2 }

def stW3 : St := { stIdle with phase := Phase.write }

/-- The payload and post-state the scenario write step produces
(established below by kernel evaluation). -/
def payloadW3 : List Chunk :=
  [Chunk.header "timestamp,device,sensor,Watts",
   Chunk.rowStart 60 "dev" "A", Chunk.valCell 7 1,
   Chunk.rowStart 120 "dev" "A", Chunk.valCell 7 1, Chunk.newline]

def stPostW3 : St := {
  phase := Phase.checkWrite, lastSent := 0, lastPost := 120,
  oldRecord := none, newRecord := none, reqData := [],
  request := none, statusMessage := none, stop := false }

lemma handle_write_s_W3 :
    handle_write_s envW3 stW3 = (WExit.posted payloadW3, stPostW3) := by
  decide

/-- C3 witness: a 500 response leaves the watermark at 0 and the retried
write posts the identical payload. -/
theorem c3_failed_submit_idempotent_resend_witness :
    (handle_checkWrite_s envW3 { (handle_write_s envW3 stW3).2 with
        request := some ⟨4, 500, "db error"⟩ }).2.lastSent = 0 ∧
    (handle_checkWrite_s envW3 { (handle_write_s envW3 stW3).2 with
        request := some ⟨4, 500, "db error"⟩ }).2.phase = Phase.write ∧
    (handle_write_s envW3
        (handle_checkWrite_s envW3 { (handle_write_s envW3 stW3).2 with
          request := some ⟨4, 500, "db error"⟩ }).2).1 =
      (handle_write_s envW3 stW3).1 := by
  have h := c3_failed_submit_idempotent_resend envW3 stW3 payloadW3 stPostW3
    ⟨4, 500, "db error"⟩ rfl rfl rfl handle_write_s_W3 (Or.inr (by decide))
  rw [handle_write_s_W3]
  refine ⟨h.1, h.2.1, h.2.2.trans ?_⟩
  rfl

/-- C2: a 201 (created) settle sets `lastSent` to exactly the timestamp
of the newest row assembled into the submitted batch — the old-record key
of the last emitted pair, which the loop stored in `_lastPost` — and not
to the step's data-read threshold. -/
theorem c2_created_sets_watermark_to_newest_row (env : Env) (st : St)
    (hs : env.scripts ≠ [])
    (hinv : ∀ u, lastRowTs st.reqData = some u → st.lastPost = u)
    (payload : List Chunk) (st1 : St) (body : String) (t : Nat)
    (hw : handle_write_s env st = (WExit.posted payload, st1))
    (ht : lastRowTs payload = some t) :
    (handle_checkWrite_s env
        { st1 with request := some ⟨4, 201, body⟩ }).1 = CWExit.success ∧
    (handle_checkWrite_s env
        { st1 with request := some ⟨4, 201, body⟩ }).2.lastSent = t := by
  obtain ⟨he, hp, hst1⟩ := handle_write_s_posted env st payload st1 hw
  have hbuf0 : ∀ u, lastRowTs (writeBufInit env st) = some u →
      st.lastPost = u := by
    intro u hu
    rw [writeBufInit] at hu
    split at hu
    · rw [lastRowTs_header_append] at hu
      exact hinv u hu
    · exact hinv u hu
  have hlp : (writeLoopRun env st).lastPost = t := by
    rw [hp, lastRowTs_newline] at ht
    exact writeLoop_lastPost_inv env hs (env.log.lastKey + 1) 0
      (writeRecsInit env st).1 (writeRecsInit env st).2 (writeBufInit env st)
      st.lastPost hbuf0 t ht
  have hstep : handle_checkWrite_s env
      { st1 with request := some ⟨4, 201, body⟩ } =
      (CWExit.success,
        { st1 with request := some ⟨4, 201, body⟩, statusMessage := none,
                    lastSent := st1.lastPost, phase := Phase.write }) := by
    simp only [handle_checkWrite_s]
    simp
  rw [hstep]
  subst hst1
  exact ⟨rfl, hlp⟩

/-- C2 witness: the spec's end-to-end scenario — threshold 180, rows
assembled for keys 60 and 120, a 201 response sets `lastSent = 120` (not
the threshold 180). -/
theorem c2_created_sets_watermark_to_newest_row_witness :
    (handle_checkWrite_s envW3 { (handle_write_s envW3 stW3).2 with
        request := some ⟨4, 201, ""⟩ }).1 = CWExit.success ∧
    (handle_checkWrite_s envW3 { (handle_write_s envW3 stW3).2 with
        request := some ⟨4, 201, ""⟩ }).2.lastSent = 120 :=
  by
  have h := c2_created_sets_watermark_to_newest_row envW3 stW3
    (by simp [envW3, baseEnv])
    (fun u hu => by simp [stW3, stIdle, lastRowTs, rowTs] at hu)
    payloadW3 stPostW3 "" 120 handle_write_s_W3 (by decide)
  rw [handle_write_s_W3]
  exact h

lemma rowTs_header_append (buf : List Chunk) (s : String) :
    rowTs (buf ++ [Chunk.header s]) = rowTs buf := by
  rw [rowTs_append]
  simp [rowTs]

/-- C6 (amended): the step defers without submitting when the log's last
key is below the data threshold `lastSent + interval + interval*bulkSend`
(lines 343-354); but the assembly loop itself stops at the log's LAST KEY
or the buffer limit (line 370-371), not at the threshold, so the bound
obeyed by every buffered row — in the posted payload and in any carried
buffer — is `lastKey`, and rows beyond the threshold are buffered
whenever more log data than the threshold exists. -/
theorem c6_threshold_gates_entry_loop_stops_at_lastKey (env : Env) (st : St)
    (hstop : st.stop = false)
    (hbuf : ∀ u ∈ rowTs st.reqData, u < env.log.lastKey) :
    (env.log.lastKey <
        st.lastSent + env.interval + env.interval * env.bulkSend →
      (handle_write_s env st).1 = WExit.deferNoData) ∧
    (∀ payload st1, handle_write_s env st = (WExit.posted payload, st1) →
      ∀ u ∈ rowTs payload, u < env.log.lastKey) ∧
    (∀ e st1, handle_write_s env st = (e, st1) →
      ∀ u ∈ rowTs st1.reqData, u < env.log.lastKey) := by
  have hbuf0 : ∀ u ∈ rowTs (writeBufInit env st), u < env.log.lastKey := by
    intro u hu
    rw [writeBufInit] at hu
    split at hu
    · rw [rowTs_header_append] at hu
      exact hbuf u hu
    · exact hbuf u hu
  have hloop := writeLoop_rowTs_lt env (env.log.lastKey + 1) 0
    (writeRecsInit env st).1 (writeRecsInit env st).2 (writeBufInit env st)
    st.lastPost hbuf0
  have hloop2 : ∀ u ∈ rowTs (writeLoopRun env st).buf,
      u < env.log.lastKey := by
    rw [writeLoopRun]
    exact hloop
  refine ⟨?_, ?_, ?_⟩
  · intro hth
    rw [handle_write_s]
    simp only [hstop, Bool.false_eq_true, if_false]
    rw [if_pos hth]
  · intro payload st1 hw u hu
    obtain ⟨-, hp, -⟩ := handle_write_s_posted env st payload st1 hw
    rw [hp, rowTs_append] at hu
    rcases List.mem_append.mp hu with h | h
    · exact hloop2 u h
    · simp [rowTs] at h
  · intro e st1 hw u hu
    rw [handle_write_s] at hw
    simp only [hstop, Bool.false_eq_true, if_false] at hw
    by_cases hth : env.log.lastKey <
        st.lastSent + env.interval + env.interval * env.bulkSend
    · rw [if_pos hth] at hw
      have h2 : st.reqData = st1.reqData :=
        congrArg (fun p => p.2.reqData) hw
      rw [← h2] at hu
      exact hbuf u hu
    · rw [if_neg hth] at hw
      rw [writeFinish] at hw
      split at hw
      · have h2 : st.reqData = st1.reqData :=
          congrArg (fun p => p.2.reqData) hw
        rw [← h2] at hu
        exact hbuf u hu
      · have h2 : (writeLoopRun env st).buf = st1.reqData :=
          congrArg (fun p => p.2.reqData) hw
        rw [← h2] at hu
        exact hloop2 u hu
      · have h2 : (writeLoopRun env st).buf = st1.reqData :=
          congrArg (fun p => p.2.reqData) hw
        rw [← h2] at hu
        exact hloop2 u hu
      · have h2 : (writeLoopRun env st).buf = st1.reqData :=
          congrArg (fun p => p.2.reqData) hw
        rw [← h2] at hu
        exact hloop2 u hu
      · split at hw
        · have h2 : ([] : List Chunk) = st1.reqData :=
            congrArg (fun p => p.2.reqData) hw
          rw [← h2] at hu
          simp [rowTs] at hu
        · have h2 : ([] : List Chunk) = st1.reqData :=
            congrArg (fun p => p.2.reqData) hw
          rw [← h2] at hu
          simp [rowTs] at hu

/-- C6 witness: insufficient data (threshold far above `lastKey`) makes
the write step defer without submitting. -/
theorem c6_threshold_witness :
    (handle_write_s { baseEnv with bulkSend := 50 } stW3).1 =
      WExit.deferNoData :=
  (c6_threshold_gates_entry_loop_stops_at_lastKey
      { baseEnv with bulkSend := 50 } stW3 rfl
      (fun u hu => by simp [stW3, stIdle, rowTs] at hu)).1 (by decide)

/-- The payload of a posted exit (empty for every other exit). -/
def postedPayload : WExit → List Chunk
  | .posted p => p
  | _ => []

/-- C6 counterexample: with `lastSent = 0`, `interval = 60`, `bulkSend = 1`
the data threshold is 120, but with log data up to `lastKey = 400` the
loop keeps assembling until the last key and the posted batch contains a
row with timestamp 360 > 120: the newest buffered record exceeds the
threshold, which only gates step entry. -/
theorem c6_loop_races_past_threshold_counterexample :
    stW3.lastSent + baseEnv.interval + baseEnv.interval * baseEnv.bulkSend =
      120 ∧
    (handle_write_s { baseEnv with log := ⟨0, 400, fun t => (t : Int)⟩ }
        stW3).1 =
      WExit.posted (postedPayload
        (handle_write_s { baseEnv with log := ⟨0, 400, fun t => (t : Int)⟩ }
          stW3).1) ∧
    360 ∈ rowTs (postedPayload
      (handle_write_s { baseEnv with log := ⟨0, 400, fun t => (t : Int)⟩ }
        stW3).1) := by
  refine ⟨by decide, by decide, by decide⟩

/-- The C4 scenario: sorted scripts covering sensor A with units 0 and 1
and sensor B with unit 0, active unit columns {0, 1, 2}, with the three
script evaluations returning `a1`, `a2`, `b1` (`none` = NaN). -/
def envC4 (a1 a2 b1 : Option ℚ) : Env := { baseEnv with
  unitsCount := 3,
  scripts := [{ name := "A", unitsEnum := 0, precision := 1,
                run := fun _ _ => a1 },
              { name := "A", unitsEnum := 1, precision := 1,
                run := fun _ _ => a2 },
              { name := "B", unitsEnum := 0, precision := 1,
                run := fun _ _ => b1 }] }

/-- A script result as a CSV cell: NaN becomes NULL. -/
def cellOf (v : Option ℚ) : Cell :=
  match v with
  | some x => Cell.val x 1
  | none => Cell.null

/-- C4 counterexample: when sensor B's only script returns NaN, no row is
started for B at all (the sensor-change close-out of lines 419-443 sits
inside `if (value == value)`), so the pair yields ONE row, not the
claimed two — B's NaN column does not merely become NULL. -/
theorem c4_nan_sensor_row_skipped_counterexample :
    rowsOf (assemblePair (envC4 (some 1) (some 2) none) ⟨60, 0⟩ ⟨120, 1⟩) =
      [⟨60, "A", [Cell.val 1 1, Cell.val 2 1, Cell.null]⟩] ∧
    (rowsOf (assemblePair (envC4 (some 1) (some 2) none)
        ⟨60, 0⟩ ⟨120, 1⟩)).length ≠ 2 ∧
    (⟨120, 1⟩ : LogRec).logHours - (⟨60, 0⟩ : LogRec).logHours ≠ 0 := by
  refine ⟨by decide, by decide, by decide⟩

/-- C4 (amended): for the scenario pair and script list, row A (the first
sensor) is always emitted, with a NaN evaluation showing as NULL in its
unit column and the inactive-beyond columns NULL-filled; row B is emitted
exactly when its script returns a number — when every script of a
NON-first sensor is NaN, that sensor's row is skipped entirely (no
close-out runs for it), which is the one departure from the claim. -/
theorem c4_row_assembly_with_nan (a1 a2 b1 : Option ℚ) (old new : LogRec)
    (_helapsed : new.logHours - old.logHours ≠ 0) :
    rowsOf (assemblePair (envC4 a1 a2 b1) old new) =
      ⟨old.UNIXtime, "A", [cellOf a1, cellOf a2, Cell.null]⟩ ::
        (match b1 with
         | some v =>
             [⟨old.UNIXtime, "B", [Cell.val v 1, Cell.null, Cell.null]⟩]
         | none => []) := by
  rcases a1 with _ | x <;> rcases a2 with _ | y <;> rcases b1 with _ | z <;>
    rfl

/-- C4 witness: all three scripts numeric gives exactly the two claimed
rows. -/
theorem c4_row_assembly_with_nan_witness :
    rowsOf (assemblePair (envC4 (some 1) (some 2) (some 3)) ⟨60, 0⟩
        ⟨120, 1⟩) =
      [⟨60, "A", [Cell.val 1 1, Cell.val 2 1, Cell.null]⟩,
       ⟨60, "B", [Cell.val 3 1, Cell.null, Cell.null]⟩] :=
  c4_row_assembly_with_nan (some 1) (some 2) (some 3) ⟨60, 0⟩ ⟨120, 1⟩
    (by decide)

/-- The C5 state: a prior zero-elapsed stall left the header-seeded buffer
and cursors with `newRecord` at the log's last key (reachable with
`bulkSend = 1`: threshold `0+60+60 = 120 = lastKey`), so the loop body
runs zero times. -/
def envC5 : Env := { baseEnv with log := ⟨0, 120, fun _ => 0⟩ }

def stC5 : St := { stIdle with
  phase := Phase.write,
  oldRecord := some ⟨60, 0⟩, newRecord := some ⟨120, 0⟩,
  reqData := [Chunk.header (mkCSVheader envC5)] }

/-- C5: the source's only empty-batch guard is `reqData.available() <= 1`
(line 483), but the CSV header (at least `"timestamp,device,sensor"`, 23
bytes) is printed into every fresh buffer before any row, so a buffer
holding the header and no data rows has `available() = 29 + 1 > 1`: the
guard cannot fire and the step issues an HTTP POST whose payload is only
the header line, contradicting the claim (and the spec's "no empty
submissions"). -/
theorem c5_header_only_buffer_is_posted :
    (handle_write_s envC5 stC5).1 =
      WExit.posted [Chunk.header (mkCSVheader envC5), Chunk.newline] ∧
    rowsOf [Chunk.header (mkCSVheader envC5), Chunk.newline] = [] ∧
    1 < avail envC5 [Chunk.header (mkCSVheader envC5), Chunk.newline] := by
  refine ⟨by decide, by decide, by decide⟩
